import Mathlib

/-!
Verification of the TFG_omission web-scraping pipeline (`webScrapping/`).

The Python sources are shallowly embedded here.  HTML documents are modelled
at the level of what each crawler reads out of a parsed page (anchor `href`
lists, JSON-LD script blocks, paragraph text lists, attribute values); the
parsing done by the external `BeautifulSoup` and `requests` libraries is
abstracted into those fields, and network fetches are modelled as oracles
`String → Option Soup`.  Python `datetime` values are modelled by the `DT`
structure together with explicit proleptic-Gregorian calendar arithmetic;
`uuid.uuid4` nondeterminism is modelled by an id oracle.  All definitions are
executable so that concrete documents can be run through the pipeline inside
proofs by `decide`.
-/

/-! ## Character and string utilities

Core `String` functions such as `String.replace` do not reduce in the kernel,
so all text processing is implemented over `List Char` and wrapped back into
`String` at the boundaries. -/

/-- Whitespace class used by the Python regexes (`\s`), restricted to the
ASCII whitespace characters that occur in the crawled text. -/
def isWsChar (c : Char) : Bool :=
  c = ' ' || c = '\t' || c = '\n' || c = '\r' || c = '\x0b' || c = '\x0c'

/-- Horizontal whitespace class used by the `[ \t]{2,}` regexes. -/
def isHWsChar (c : Char) : Bool :=
  c = ' ' || c = '\t'

/-- Lower-casing, modelling Python `str.lower` on the ASCII range. -/
def lowerStr (s : String) : String :=
  String.mk (s.data.map Char.toLower)

/-- Python `str.strip` (both-ends whitespace trim). -/
def trimChars (l : List Char) : List Char :=
  ((l.dropWhile isWsChar).reverse.dropWhile isWsChar).reverse

/-- Python `str.strip` on strings. -/
def stripStr (s : String) : String :=
  String.mk (trimChars s.data)

/-- Substring test on character lists (Python `needle in haystack`). -/
def subList (needle : List Char) : List Char → Bool
  | [] => needle.isEmpty
  | c :: rest => needle.isPrefixOf (c :: rest) || subList needle rest

/-- Substring test on strings (Python `needle in haystack`). -/
def subStr (needle hay : String) : Bool :=
  subList needle.data hay.data

/-- Python `"sep".join(parts)`. -/
def joinWith (sep : String) : List String → String
  | [] => ""
  | [p] => p
  | p :: rest => p ++ sep ++ joinWith sep rest

/-- Rewrites every maximal run of characters satisfying `p` through `f`,
leaving other characters untouched.  Fuel-based so that it reduces in the
kernel; the wrappers always pass enough fuel. -/
def collapseRuns (p : Char → Bool) (f : List Char → List Char) :
    Nat → List Char → List Char
  | 0, l => l
  | _, [] => []
  | fuel + 1, c :: cs =>
    if p c then
      f (c :: cs.takeWhile p) ++ collapseRuns p f fuel (cs.dropWhile p)
    else
      c :: collapseRuns p f fuel cs

/-- The substitution `re.sub(r"\s+\n", "\n", text)`: every maximal whitespace
run that contains a newline is replaced by a newline followed by whatever part
of the run came after its last newline. -/
def subWsNewline (l : List Char) : List Char :=
  collapseRuns isWsChar
    (fun run =>
      if run.contains '\n' then
        '\n' :: (run.reverse.takeWhile (fun c => c ≠ '\n')).reverse
      else run)
    l.length l

/-- The substitution `re.sub(r"\n{3,}", "\n\n", text)`. -/
def subManyNewlines (l : List Char) : List Char :=
  collapseRuns (fun c => c = '\n')
    (fun run => if 3 ≤ run.length then ['\n', '\n'] else run)
    l.length l

/-- The substitution `re.sub(r"[ \t]{2,}", " ", text)`. -/
def subManyHWs (l : List Char) : List Char :=
  collapseRuns isHWsChar
    (fun run => if 2 ≤ run.length then [' '] else run)
    l.length l

/-- Models Python `html.unescape` on the entity forms that occur in the
crawled pages (`&amp;` `&lt;` `&gt;` `&quot;` `&#39;` `&nbsp;`); all other
text is passed through unchanged.  Fuel-based for kernel reduction. -/
def unescapeEnts : Nat → List Char → List Char
  | 0, l => l
  | _, [] => []
  | fuel + 1, c :: cs =>
    if c = '&' then
      if "amp;".data.isPrefixOf cs then '&' :: unescapeEnts fuel (cs.drop 4)
      else if "lt;".data.isPrefixOf cs then '<' :: unescapeEnts fuel (cs.drop 3)
      else if "gt;".data.isPrefixOf cs then '>' :: unescapeEnts fuel (cs.drop 3)
      else if "quot;".data.isPrefixOf cs then '"' :: unescapeEnts fuel (cs.drop 5)
      else if "#39;".data.isPrefixOf cs then '\x27' :: unescapeEnts fuel (cs.drop 4)
      else if "nbsp;".data.isPrefixOf cs then '\xa0' :: unescapeEnts fuel (cs.drop 5)
      else c :: unescapeEnts fuel cs
    else c :: unescapeEnts fuel cs

/-- The shared text normalisation `_clean_text` / `_clean` of the crawlers:
HTML-entity unescape, non-breaking space to plain space, `\s+\n` collapse,
`\n{3,}` collapse, `[ \t]{2,}` collapse, strip. -/
def clean_text (s : String) : String :=
  let l0 := unescapeEnts s.data.length s.data
  let l1 := l0.map (fun c => if c = '\xa0' then ' ' else c)
  String.mk (trimChars (subManyHWs (subManyNewlines (subWsNewline l1))))

/-- One step of the `re.sub(r"\s+TOK\s+", " ", text)` scan used by
`_strip_paywall_cuts`: a whitespace run immediately followed by the token and
more whitespace collapses to a single space, and scanning resumes after the
match, mirroring `re.sub` left-to-right behaviour. -/
def subIsolatedTok (tok : List Char) : Nat → List Char → List Char
  | 0, l => l
  | _, [] => []
  | fuel + 1, c :: cs =>
    if isWsChar c then
      let rest := cs.dropWhile isWsChar
      if tok.isPrefixOf rest then
        let rest2 := rest.drop tok.length
        if (rest2.head?.map isWsChar).getD false then
          ' ' :: subIsolatedTok tok fuel (rest2.dropWhile isWsChar)
        else
          c :: subIsolatedTok tok fuel cs
      else
        c :: subIsolatedTok tok fuel cs
    else c :: subIsolatedTok tok fuel cs

/-- The paywall-cut stripper `_strip_paywall_cuts` of `ABC.py` and
`ElConfidencial.py`: isolated ` ... ` and ` … ` tokens become a space, then
horizontal whitespace runs are collapsed and the text is stripped.  An empty
input is returned unchanged. -/
def strip_paywall_cuts (s : String) : String :=
  if s = "" then s
  else
    let l1 := subIsolatedTok "...".data s.data.length s.data
    let l2 := subIsolatedTok "…".data l1.length l1
    String.mk (trimChars (subManyHWs l2))

/-! ## Calendar arithmetic and datetimes

Models the parts of the Python `datetime` / `zoneinfo` standard library used
by the crawlers: proleptic Gregorian calendar conversion, ISO-8601 parsing,
timezone conversion, and the Europe/Madrid zone with its EU DST rule. -/

/-- Days since 1970-01-01 of a civil date (standard proleptic-Gregorian
conversion with floor division). -/
def daysFromCivil (y m d : Int) : Int :=
  let y2 := if m ≤ 2 then y - 1 else y
  let era := Int.fdiv y2 400
  let yoe := y2 - era * 400
  let mp := Int.emod (m + 9) 12
  let doy := Int.fdiv (153 * mp + 2) 5 + d - 1
  let doe := yoe * 365 + Int.fdiv yoe 4 - Int.fdiv yoe 100 + doy
  era * 146097 + doe - 719468

/-- Civil date (year, month, day) of a count of days since 1970-01-01. -/
def civilFromDays (z0 : Int) : Int × Int × Int :=
  let z := z0 + 719468
  let era := Int.fdiv z 146097
  let doe := z - era * 146097
  let yoe := Int.fdiv (doe - Int.fdiv doe 1460 + Int.fdiv doe 36524 - Int.fdiv doe 146096) 365
  let y := yoe + era * 400
  let doy := doe - (365 * yoe + Int.fdiv yoe 4 - Int.fdiv yoe 100)
  let mp := Int.fdiv (5 * doy + 2) 153
  let d := doy - Int.fdiv (153 * mp + 2) 5 + 1
  let m := mp + (if mp < 10 then 3 else -9)
  (if m ≤ 2 then y + 1 else y, m, d)

/-- A Python `datetime` value: calendar fields plus an optional UTC offset in
minutes.  `offset = none` models a naive datetime. -/
structure DT where
  year : Int
  month : Int
  day : Int
  hour : Int
  minute : Int
  second : Int
  offset : Option Int
deriving Repr, DecidableEq

/-- The calendar date stored in a datetime value (Python `d.date()`), taken
from the stored fields without any timezone conversion. -/
def DT.dateTriple (d : DT) : Int × Int × Int :=
  (d.year, d.month, d.day)

/-- Seconds since the epoch of an aware datetime whose offset is `off`
minutes east of UTC. -/
def DT.instantAt (d : DT) (off : Int) : Int :=
  daysFromCivil d.year d.month d.day * 86400
    + d.hour * 3600 + d.minute * 60 + d.second - off * 60

/-- The aware datetime with offset `off` minutes that denotes the instant
`t` (seconds since the epoch); models `d.astimezone(tz)` for a fixed-offset
view of the zone at that instant. -/
def dtFromInstant (t off : Int) : DT :=
  let loc := t + off * 60
  let days := Int.fdiv loc 86400
  let sod := loc - days * 86400
  let c := civilFromDays days
  ⟨c.1, c.2.1, c.2.2, Int.fdiv sod 3600, Int.fdiv (Int.emod sod 3600) 60,
    Int.emod sod 60, some off⟩

/-- UTC calendar date of an instant (Python `datetime.now(timezone.utc).date()`
when `t` is the current instant). -/
def utcDate (t : Int) : Int × Int × Int :=
  civilFromDays (Int.fdiv t 86400)

/-- Calendar date of an instant as seen in a timezone given as an
offset-in-minutes function of the instant. -/
def dateInTz (tz : Int → Int) (t : Int) : Int × Int × Int :=
  civilFromDays (Int.fdiv (t + tz t * 60) 86400)

/-- Day of week of an epoch-day count, with Sunday = 0. -/
def weekdayOfDays (z : Int) : Int :=
  Int.emod (z + 4) 7

/-- Epoch-day count of the last Sunday of the given month. -/
def lastSundayOfMonth (y m : Int) : Int :=
  let z := daysFromCivil y m 31
  z - weekdayOfDays z

/-- Models `ZoneInfo("Europe/Madrid")`: offset in minutes east of UTC at an
instant, CET (+60) in winter and CEST (+120) between the last Sundays of
March and October at 01:00 UTC (the EU daylight-saving rule). -/
def madridOffset (t : Int) : Int :=
  let y := (civilFromDays (Int.fdiv t 86400)).1
  let dstStart := lastSundayOfMonth y 3 * 86400 + 3600
  let dstEnd := lastSundayOfMonth y 10 * 86400 + 3600
  if dstStart ≤ t ∧ t < dstEnd then 120 else 60

/-! ### ISO-8601 parsing

Models `datetime.fromisoformat` on the forms the publishers emit:
`YYYY-MM-DD`, optionally followed by `T` or a space and `HH:MM`, `HH:MM:SS`
or `HH:MM:SS.ffffff`, optionally followed by a `+HH:MM` / `-HH:MM` offset.
Out-of-range fields make the parse fail, as in Python. -/

/-- Numeric value of a decimal digit character. -/
def digitVal (c : Char) : Option Nat :=
  if '0' ≤ c ∧ c ≤ '9' then some (c.toNat - '0'.toNat) else none

/-- Parses exactly `n` decimal digits, returning their value and the rest. -/
def parseDigits : Nat → List Char → Option (Nat × List Char)
  | 0, l => some (0, l)
  | _ + 1, [] => none
  | n + 1, c :: cs => do
    let d ← digitVal c
    let (v, rest) ← parseDigits n cs
    return (d * 10 ^ n + v, rest)

/-- Consumes an expected single character. -/
def expectChar (c : Char) : List Char → Option (List Char)
  | [] => none
  | x :: xs => if x = c then some xs else none

/-- Number of days in a month of the proleptic Gregorian calendar. -/
def daysInMonth (y m : Int) : Int :=
  if m = 2 then
    if Int.emod y 4 = 0 ∧ (Int.emod y 100 ≠ 0 ∨ Int.emod y 400 = 0) then 29 else 28
  else if m = 4 ∨ m = 6 ∨ m = 9 ∨ m = 11 then 30
  else 31

/-- Parses the optional `±HH:MM` trailing offset; `none` in the result pair
means a naive datetime.  Anything left over makes the whole parse fail. -/
def parseOffsetPart : List Char → Option (Option Int)
  | [] => some none
  | c :: cs =>
    if c = '+' ∨ c = '-' then do
      let (oh, r1) ← parseDigits 2 cs
      let r2 ← expectChar ':' r1
      let (om, r3) ← parseDigits 2 r2
      if r3 = [] ∧ oh < 24 ∧ om < 60 then
        let mins : Int := oh * 60 + om
        return some (if c = '-' then -mins else mins)
      else none
    else none

/-- Parses the `HH:MM[:SS[.ffffff]]` time part followed by an optional
offset; the fractional second digits are accepted and discarded. -/
def parseTimePart (l : List Char) : Option (Nat × Nat × Nat × Option Int) := do
  let (h, r1) ← parseDigits 2 l
  let r2 ← expectChar ':' r1
  let (mi, r3) ← parseDigits 2 r2
  if ¬(h < 24 ∧ mi < 60) then none
  else
    match r3 with
    | ':' :: r4 => do
      let (s, r5) ← parseDigits 2 r4
      if ¬(s < 60) then none
      else
        match r5 with
        | '.' :: r6 =>
          let frac := r6.takeWhile (fun c => (digitVal c).isSome)
          let r7 := r6.dropWhile (fun c => (digitVal c).isSome)
          if frac.length = 3 ∨ frac.length = 6 then do
            let off ← parseOffsetPart r7
            return (h, mi, s, off)
          else none
        | r6 => do
          let off ← parseOffsetPart r6
          return (h, mi, s, off)
    | r4 => do
      let off ← parseOffsetPart r4
      return (h, mi, 0, off)

/-- Models `datetime.fromisoformat` on the subset described above. -/
def parseIso (s : String) : Option DT := do
  let l := s.data
  let (y, r1) ← parseDigits 4 l
  let r2 ← expectChar '-' r1
  let (mo, r3) ← parseDigits 2 r2
  let r4 ← expectChar '-' r3
  let (d, r5) ← parseDigits 2 r4
  if ¬(1 ≤ mo ∧ mo ≤ 12 ∧ 1 ≤ d ∧ (d : Int) ≤ daysInMonth y mo) then none
  else
    match r5 with
    | [] => return ⟨y, mo, d, 0, 0, 0, none⟩
    | sep :: r6 =>
      if sep = 'T' ∨ sep = ' ' then do
        let (h, mi, sec, off) ← parseTimePart r6
        return ⟨y, mo, d, h, mi, sec, off⟩
      else none

/-- Python `s.replace("Z", "+00:00")` over character lists. -/
def replaceZChars : List Char → List Char
  | [] => []
  | 'Z' :: rest => '+' :: '0' :: '0' :: ':' :: '0' :: '0' :: replaceZChars rest
  | c :: rest => c :: replaceZChars rest

/-- Python `s.replace("Z", "+00:00")`. -/
def replaceZ (s : String) : String :=
  String.mk (replaceZChars s.data)

/-- The shared `_normalize_dt` helper of `ABC.py`, `LaRazon.py`,
`ElConfidencial.py` and `ElDiario.py`: strip, map `Z` to `+00:00`, parse;
a naive datetime is kept naive, an aware one is converted to UTC.  The
helper returns an ISO string in the source; the embedding returns the parsed
value that a later `fromisoformat` of that string recovers, and `none`
models the empty-string failure result. -/
def normalize_dt (s : String) : Option DT := do
  let d ← parseIso (replaceZ (stripStr s))
  match d.offset with
  | none => return d
  | some off => return dtFromInstant (d.instantAt off) 0

/-! ## JSON values

Models the values produced by `json.loads` for the JSON-LD blocks; a script
whose contents fail to parse is represented as `none` upstream. -/

/-- JSON value tree. -/
inductive Json where
  | null
  | boolean (b : Bool)
  | num (n : Int)
  | str (s : String)
  | arr (elems : List Json)
  | obj (fields : List (String × Json))
deriving Repr

/-- Python truthiness of a JSON value (`None`, `False`, `0`, `""`, `[]` and
empty objects are falsy). -/
def jsonTruthy : Json → Bool
  | .null => false
  | .boolean b => b
  | .num n => n ≠ 0
  | .str s => s ≠ ""
  | .arr l => ¬l.isEmpty
  | .obj f => ¬f.isEmpty

/-- Python `obj.get(key)` on a JSON object; `none` on other values. -/
def jget : Json → String → Option Json
  | .obj fields, k => fields.lookup k
  | _, _ => none

/-- Is the value a JSON object (Python `isinstance(obj, dict)`)? -/
def isJObj : Json → Bool
  | .obj _ => true
  | _ => false

/-- Python `a or b` where `a` is `obj.get(k1)` and `b` is `obj.get(k2)`:
a missing or falsy first value falls through to the second. -/
def pyGetOr (o : Json) (k1 k2 : String) : Option Json :=
  match jget o k1 with
  | some v => if jsonTruthy v then some v else jget o k2
  | none => jget o k2

/-- The members of an `@graph` array that are objects; empty when the value
is not an object or carries no `@graph` list (the crawlers' graph-walk
extension step). -/
def graphKids (o : Json) : List Json :=
  if isJObj o then
    match jget o "@graph" with
    | some (.arr xs) => xs.filter isJObj
    | _ => []
  else []

/-- The `@type` / `type` value after the crawlers' list unwrapping
(`typ = typ[0] if typ else None`). -/
def resolvedType (o : Json) : Option Json :=
  match pyGetOr o "@type" "type" with
  | some (.arr xs) => xs.head?
  | t => t

/-- The article types accepted by every crawler's JSON-LD walk. -/
def articleTypes : List String :=
  ["NewsArticle", "Article", "ReportageNewsArticle"]

mutual

/-- Number of nodes of a JSON value (used as fuel for queue walks). -/
def jsonSize : Json → Nat
  | .null => 1
  | .boolean _ => 1
  | .num _ => 1
  | .str _ => 1
  | .arr xs => 1 + jsonListSize xs
  | .obj fs => 1 + jsonFieldsSize fs

/-- Total node count of a list of JSON values. -/
def jsonListSize : List Json → Nat
  | [] => 1
  | j :: js => jsonSize j + jsonListSize js

/-- Total node count of the values of a JSON object. -/
def jsonFieldsSize : List (String × Json) → Nat
  | [] => 1
  | f :: fs => jsonSize f.2 + jsonFieldsSize fs

end

/-- Does the object carry one of the accepted article types (using the
`@type or type` lookup with list unwrapping, as in `ABC.py`, `LaRazon.py`
and `ElMundo.py`)? -/
def isArticleType (o : Json) : Bool :=
  match resolvedType o with
  | some (.str s) => s ∈ articleTypes
  | _ => false

/-- The candidate list of the snapshot graph walk used by `ABC.py`,
`LaRazon.py`, `ElPais.py` and `ElConfidencial.py`: the top-level values,
followed by the object members of their `@graph` arrays (the snapshot
`for obj in list(candidates)` extends one level only). -/
def snapshotCandidates (data : Json) : List Json :=
  let init := match data with
    | .arr xs => xs
    | j => [j]
  init ++ init.flatMap graphKids

/-! ## URL helpers

Models the parts of `urllib.parse` the crawlers use, on the absolute and
root-relative URL shapes that occur in the pages: `urljoin` resolves
root-relative and scheme-relative references against the base, and
`urlparse` splits off the network location and path. -/

/-- Index of the first occurrence of a character, if any. -/
def idxOfChar (l : List Char) (c : Char) : Option Nat :=
  l.findIdx? (fun x => x = c)

/-- Splits a string at the first occurrence of a separator character. -/
def splitAtChar (s : String) (c : Char) : String × String :=
  match idxOfChar s.data c with
  | none => (s, "")
  | some i => (String.mk (s.data.take i), String.mk (s.data.drop i))

/-- Does the string start with the given prefix (Python `startswith`)? -/
def startsWith (pre s : String) : Bool :=
  pre.data.isPrefixOf s.data

/-- The part of a URL after the scheme marker `://`, if present. -/
def afterScheme (s : String) : Option String :=
  if startsWith "http://" s then some (String.mk (s.data.drop 7))
  else if startsWith "https://" s then some (String.mk (s.data.drop 8))
  else none

/-- Models `urlparse(u).netloc` for absolute URLs; empty for others. -/
def urlNetloc (u : String) : String :=
  match afterScheme u with
  | some rest => (splitAtChar rest '/').1
  | none => ""

/-- Models `urlparse(u).path`: the part after the network location for
absolute URLs, the string itself for relative references, with any query or
fragment suffix removed. -/
def urlPath (u : String) : String :=
  let body := match afterScheme u with
    | some rest => (splitAtChar rest '/').2
    | none => u
  (splitAtChar (splitAtChar body '?').1 '#').1

/-- Models `urljoin(base, href)` for the reference shapes the crawlers meet:
absolute references win, scheme-relative references take the scheme of the
base, root-relative references are attached to the origin of the base, and
anything else resolves against the directory of the base path. -/
def urljoin (base href : String) : String :=
  if (afterScheme href).isSome then href
  else if startsWith "//" href then
    (splitAtChar base ':').1 ++ ":" ++ href
  else
    match afterScheme base with
    | none => href
    | some rest =>
      let scheme := (splitAtChar base ':').1
      let netloc := (splitAtChar rest '/').1
      if startsWith "/" href then
        scheme ++ "://" ++ netloc ++ href
      else
        let path := (splitAtChar rest '/').2
        let dir := (path.data.reverse.dropWhile (fun c => c ≠ '/')).reverse
        scheme ++ "://" ++ netloc ++ String.mk dir ++ href

/-- Matcher for the `ABC.py` article pattern `-\d{14}-(nt|nts|di)\.html$`
(case-insensitive): returns the 14-digit block when the path matches. -/
def abcArticleStamp (path : String) : Option String :=
  let l := (lowerStr path).data
  if ".html".data.isSuffixOf l then
    let r := l.take (l.length - 5)
    let afterTok : List Char → Option (List Char) := fun t =>
      if ['n', 't', 's'].isSuffixOf t then some (t.take (t.length - 3))
      else if ['n', 't'].isSuffixOf t then some (t.take (t.length - 2))
      else if ['d', 'i'].isSuffixOf t then some (t.take (t.length - 2))
      else none
    match afterTok r with
    | none => none
    | some r2 =>
      match r2.reverse with
      | '-' :: rr =>
        let digits := (rr.takeWhile (fun c => (digitVal c).isSome)).reverse
        let beforeDigits := rr.dropWhile (fun c => (digitVal c).isSome)
        if digits.length = 14 ∧ beforeDigits.head? = some '-' then
          some (String.mk digits)
        else none
      | _ => none
  else none

/-! ## Ordered deduplication

The discovery loops of every crawler keep a `seen` set next to an ordered
`urls` list; these helpers model that pattern over membership lists. -/

/-- The `if u not in seen: seen.add(u); urls.append(u)` loop over one list of
candidates, starting from a given `seen` state. -/
def dedupSeen {α : Type} [DecidableEq α] : List α → List α → List α
  | [], _ => []
  | x :: xs, seen =>
    if x ∈ seen then dedupSeen xs seen else x :: dedupSeen xs (x :: seen)

/-- The same loop, also returning the final `seen` state so that it can be
threaded across several seed pages. -/
def addNew {α : Type} [DecidableEq α] : List α → List α → List α × List α
  | [], seen => ([], seen)
  | x :: xs, seen =>
    if x ∈ seen then addNew xs seen
    else
      let r := addNew xs (x :: seen)
      (x :: r.1, r.2)

/-! ## ABC crawler (`webScrapping/crawlers/ABC.py`) -/

namespace ABC

/-- Newspaper name constant. -/
def newspaper : String := "ABC"

/-- Seed section pages. -/
def SECTION_URLS : List String :=
  ["https://www.abc.es/espana/", "https://www.abc.es/internacional/",
   "https://www.abc.es/economia/", "https://www.abc.es/sociedad/"]

/-- The text content the crawler reads from the `<article>` node of one
page: `vocPs` are the texts of `article.select("p.voc-p")` and `allPs` the
texts of `article.find_all("p")`, both after the `_extract_body` decompose
pass; `altPs` are the texts of `find_all("p")` after the separate decompose
pass of the short-body fallback inside `crawl`. -/
structure ArticleNode where
  vocPs : List String
  allPs : List String
  altPs : List String
deriving Repr

/-- A fetched and parsed page, at the level of what `ABC.py` reads from the
`BeautifulSoup` value: anchor `href` attributes of
`article a[href], h2 a[href], h3 a[href]` in document order, the parse
results of the `ld+json` scripts (`none` models a `json.loads` failure or an
empty script), the `datetime` attribute of the first `time[datetime]`, the
heading / meta / title texts, and the article node. -/
structure Soup where
  anchors : List String
  jsonld : List (Option Json)
  timeAttr : Option String
  h1Text : Option String
  ogTitle : Option String
  titleText : Option String
  article : Option ArticleNode
deriving Repr

/-- `ABC._is_valid_article_url`. -/
def is_valid_article_url (selfUrl href0 : String) : Bool :=
  if href0 = "" then false
  else
    let href := stripStr href0
    if startsWith "#" href || startsWith "javascript:" (lowerStr href) then false
    else
      let absUrl := urljoin selfUrl href
      if ¬ subStr "abc.es" (urlNetloc absUrl) then false
      else if subStr "/opinion" (lowerStr (urlPath absUrl)) then false
      else (abcArticleStamp (urlPath absUrl)).isSome

/-- The loop body of `ABC._extract_section_links`: strip each anchor, keep
the valid article URLs resolved against the base, deduplicating with a local
`seen` set. -/
def sectLoop (selfUrl : String) : List String → List String → List String
  | [], _ => []
  | a :: rest, seen =>
    let href := stripStr a
    if is_valid_article_url selfUrl href then
      let u := urljoin selfUrl href
      if u ∈ seen then sectLoop selfUrl rest seen
      else u :: sectLoop selfUrl rest (u :: seen)
    else sectLoop selfUrl rest seen

/-- `ABC._extract_section_links`. -/
def extract_section_links (selfUrl : String) (soup : Soup) : List String :=
  sectLoop selfUrl soup.anchors []

/-- The seed loop of `ABC.crawl`: fetch each section page, skip failures,
and accumulate the per-section links through one shared `seen` set. -/
def discoverFrom (selfUrl : String) (fetch : String → Option Soup) :
    List String → List String → List String
  | [], _ => []
  | sec :: secs, seen =>
    match fetch sec with
    | none => discoverFrom selfUrl fetch secs seen
    | some soup =>
      let r := addNew (extract_section_links selfUrl soup) seen
      r.1 ++ discoverFrom selfUrl fetch secs r.2

/-- The full discovery phase of `ABC.crawl`. -/
def discover (selfUrl : String) (fetch : String → Option Soup) : List String :=
  discoverFrom selfUrl fetch SECTION_URLS []

/-- `ABC._extract_title`: first heading, then `og:title`, then the title
element. -/
def extract_title (soup : Soup) : String :=
  if (soup.h1Text.getD "") ≠ "" then soup.h1Text.getD ""
  else if (soup.ogTitle.getD "") ≠ "" then stripStr (soup.ogTitle.getD "")
  else soup.titleText.getD ""

/-- The paywall/CTA paragraph filter of `ABC._extract_body`. -/
def ctaText (txt : String) : Bool :=
  let low := lowerStr txt
  subStr "suscríbete" low || subStr "súmate" low ||
    subStr "esta funcionalidad es sólo" low

/-- `ABC._extract_body`: paragraphs of the article container (the `p.voc-p`
selection, falling back to all paragraphs when it is empty), dropping empty,
short and CTA paragraphs, joined and normalised. -/
def extract_body (soup : Soup) : String :=
  match soup.article with
  | none => ""
  | some art =>
    let ps := if ¬art.vocPs.isEmpty then art.vocPs else art.allPs
    let parts := ps.filter (fun t =>
      if t = "" ∨ t.length < 35 then false
      else if ctaText t then false
      else true)
    strip_paywall_cuts (clean_text (joinWith "\n\n" parts))

/-- `ABC._is_probably_paywalled`. -/
def is_probably_paywalled (body : String) : Bool :=
  body.length < 300

/-- The alternate whole-article paragraph scan built inside `ABC.crawl` when
the primary body is short: all paragraphs longer than 30 characters after
the fallback decompose pass. -/
def altBody (soup : Soup) : Option String :=
  match soup.article with
  | none => none
  | some art =>
    let ps := art.altPs.filter (fun t =>
      if t = "" ∨ t.length ≤ 30 then false else true)
    some (strip_paywall_cuts (clean_text (joinWith "\n\n" ps)))

/-- The body selection of `ABC.crawl`: the extracted body, replaced by the
alternate scan only when the body looks paywalled and the alternate text is
strictly longer. -/
def bodyWithFallback (soup : Soup) : String :=
  let body := extract_body soup
  if is_probably_paywalled body then
    match altBody soup with
    | none => body
    | some alt => if body.length < alt.length then alt else body
  else body

/-- The per-object date pick of the JSON-LD walk in `ABC._extract_date_iso`:
an article-typed object yields `dateModified or datePublished` when that is
a non-blank string that normalises. -/
def objDate (o : Json) : Option DT :=
  if ¬ isJObj o then none
  else if ¬ isArticleType o then none
  else
    match pyGetOr o "dateModified" "datePublished" with
    | some (.str s) => if stripStr s ≠ "" then normalize_dt s else none
    | _ => none

/-- Tier 1 of `ABC._extract_date_iso`: first date produced by the snapshot
graph walk over the JSON-LD scripts. -/
def jsonldDate (scripts : List (Option Json)) : Option DT :=
  scripts.findSome? (fun s? =>
    s?.bind (fun data => (snapshotCandidates data).findSome? objDate))

/-- Tier 2 of `ABC._extract_date_iso`: the machine-readable attribute of a
`time[datetime]` element, when non-empty and parseable. -/
def timeTagDate (soup : Soup) : Option DT :=
  match soup.timeAttr with
  | some s => if s ≠ "" then normalize_dt s else none
  | none => none

/-- Tier 3 of `ABC._extract_date_iso`: midnight UTC of the 8-digit date
prefix of the 14-digit stamp in the URL path.  The source builds the string
`YYYY-MM-DDT00:00:00Z` without validation; a stamp whose digits do not form
a real date yields a string every later parse rejects, which the embedding
folds into `none` here (the crawl outcome, skipping the URL, is the same). -/
def urlStampDate (link : String) : Option DT :=
  (abcArticleStamp (urlPath link)).bind (fun stamp =>
    let y := String.mk (stamp.data.take 4)
    let mo := String.mk ((stamp.data.drop 4).take 2)
    let d := String.mk ((stamp.data.drop 6).take 2)
    normalize_dt (y ++ "-" ++ mo ++ "-" ++ d ++ "T00:00:00Z"))

/-- `ABC._extract_date_iso`: JSON-LD first, then the DOM time element, then
the URL stamp; `none` models the empty-string failure result. -/
def extract_date_iso (soup : Soup) (link : String) : Option DT :=
  match jsonldDate soup.jsonld with
  | some d => some d
  | none =>
    match timeTagDate soup with
    | some d => some d
    | none => urlStampDate link

/-- `ABC._is_today`: the calendar date stored in the parsed timestamp,
compared with the current UTC calendar date; a parse failure is `false`. -/
def is_today (dt : Option DT) (now : Int) : Bool :=
  match dt with
  | none => false
  | some d => decide (d.dateTriple = utcDate now)

/-- Two-digit zero padding for `strftime`. -/
def pad2 (n : Int) : String :=
  if n < 10 then "0" ++ toString n else toString n

/-- `ABC._iso_to_ddmmyyyy` on a parsed timestamp (`strftime("%d-%m-%Y")`). -/
def iso_to_ddmmyyyy (d : DT) : String :=
  pad2 d.day ++ "-" ++ pad2 d.month ++ "-" ++ toString d.year

/-- The per-URL body of the main loop of `ABC.crawl`: fetch, resolve the
date, require it to be today, extract title and body with the short-body
fallback, gate on non-empty title/body and 300 characters, and assemble the
output record (the `uuid.uuid4` call is modelled by the `genId` oracle). -/
def processLink (fetch : String → Option Soup) (now : Int)
    (genId : String → String) (link : String) :
    Option (List (String × String)) :=
  match fetch link with
  | none => none
  | some soup =>
    match extract_date_iso soup link with
    | none => none
    | some dt =>
      if ¬ is_today (some dt) now then none
      else
        let headline := extract_title soup
        let body := bodyWithFallback soup
        if headline = "" ∨ body = "" ∨ body.length < 300 then none
        else
          some [("id", genId link), ("headline", headline), ("body", body),
                ("link", link), ("date", iso_to_ddmmyyyy dt), ("bias", "N"),
                ("newspaper", newspaper)]

/-- The accumulating article loop of `ABC.crawl` (`data.append(...)`). -/
def articleLoop (fetch : String → Option Soup) (now : Int)
    (genId : String → String) :
    List String → List (List (String × String)) → List (List (String × String))
  | [], acc => acc
  | link :: rest, acc =>
    match processLink fetch now genId link with
    | none => articleLoop fetch now genId rest acc
    | some r => articleLoop fetch now genId rest (acc ++ [r])

/-- `ABC.crawl`: discover section links, return early when none were found,
then run the bounded article loop. -/
def crawl (selfUrl : String) (fetch : String → Option Soup) (now : Int)
    (genId : String → String) (maxNews : Nat) :
    List (List (String × String)) :=
  let urls := discover selfUrl fetch
  if urls.isEmpty then []
  else articleLoop fetch now genId (urls.take maxNews) []

end ABC

/-- Value of a record field, with Python missing-key access modelled as the
empty string. -/
def rkey (r : List (String × String)) (k : String) : String :=
  (r.lookup k).getD ""

/-- The key list of an output record, in construction order. -/
def recKeys (r : List (String × String)) : List String :=
  r.map Prod.fst

/-! ## LaRazon crawler (`webScrapping/crawlers/LaRazon.py`)

Only the parts the claims are about are embedded: the Europe/Madrid
freshness check and the lifestyle/service topical filter. -/

namespace LaRazon

/-- Lifestyle deny tags (`LIFESTYLE_TAGS_DENY`). -/
def LIFESTYLE_TAGS_DENY : List String :=
  ["hogar", "decoración", "bricolaje", "cocina", "recetas", "belleza", "moda",
   "salud", "bienestar", "psicología", "curiosidades", "tiktok", "mascotas",
   "horóscopo", "astrología", "viajes", "motor", "tecnología", "compras"]

/-- Hard-news allow tags (`HARD_NEWS_TAGS_HINT`). -/
def HARD_NEWS_TAGS_HINT : List String :=
  ["pp", "psoe", "vox", "sumar", "podemos", "gobierno", "congreso", "senado",
   "tribunales", "aemet", "ucrania", "israel", "gaza", "rusia",
   "ministerio", "sanidad", "hacienda", "economía", "inflación",
   "elecciones", "ue", "otan"]

/-- `LaRazon._should_skip_article`.  The page-tag listing extracted by
`_extract_archivado_tags` is passed in as `tags`, and the
`HOWTO_HEADLINE_RE` regex test is modelled by the `howto` predicate
parameter; the control flow is embedded exactly: the URL `p7m` marker wins,
then the lifestyle deny tags, then the hard-news allow tags, and the
headline heuristic runs only when no tag decided. -/
def should_skip_article (howto : String → Bool) (link headline : String)
    (tags : List String) : Bool :=
  let lowLink := lowerStr link
  if subStr "-p7m_" lowLink || subStr "_p7m_" lowLink then true
  else if tags.any (fun t => t ∈ LIFESTYLE_TAGS_DENY) then true
  else if tags.any (fun t => t ∈ HARD_NEWS_TAGS_HINT) then false
  else if headline ≠ "" ∧ howto headline then true
  else false

/-- `LaRazon._is_today`: the parsed timestamp viewed in Europe/Madrid (a
naive one by field reinterpretation, an aware one through `astimezone`),
compared with the current Madrid calendar date; a parse failure is
`false`. -/
def is_today (dt : Option DT) (now : Int) : Bool :=
  match dt with
  | none => false
  | some d =>
    let todayMadrid := dateInTz madridOffset now
    match d.offset with
    | none => decide (d.dateTriple = todayMadrid)
    | some off =>
      let t := d.instantAt off
      decide ((dtFromInstant t (madridOffset t)).dateTriple = todayMadrid)

end LaRazon

/-! ## ElMundo crawler (`webScrapping/crawlers/ElMundo.py`)

The body-extraction cascade is embedded; `domNodes` holds the texts of the
`h2, h3, p, blockquote` nodes under the selected body container after the
decompose pass. -/

namespace ElMundo

/-- A fetched article page, restricted to what `_extract_body` reads. -/
structure Soup where
  jsonld : List (Option Json)
  domNodes : Option (List String)
deriving Repr

/-- The candidate loop of `ElMundo._body_from_jsonld`: Python iterates the
candidate list while extending it with the object members of each `@graph`
array, so nested graphs are walked too; modelled as a fuel-based queue. -/
def bodyWalk : Nat → List Json → Option String
  | 0, _ => none
  | _ + 1, [] => none
  | fuel + 1, o :: rest =>
    if ¬ isJObj o then bodyWalk fuel rest
    else
      let queue := rest ++ graphKids o
      if isArticleType o then
        match jget o "articleBody" with
        | some (.str b) =>
          if stripStr b ≠ "" then some (clean_text b) else bodyWalk fuel queue
        | _ => bodyWalk fuel queue
      else bodyWalk fuel queue

/-- `ElMundo._body_from_jsonld` over all scripts (empty string when no
script yields a body, as in the source).  The fuel passed to the queue walk
exceeds the number of JSON nodes, so the walk always runs to completion. -/
def body_from_jsonld (scripts : List (Option Json)) : String :=
  (scripts.findSome? (fun s? => s?.bind (fun data =>
    let init := match data with
      | .arr xs => xs
      | j => [j]
    bodyWalk (2 * jsonSize data + 2) init))).getD ""

/-- The paywall/CTA node filter of `ElMundo._body_from_dom`. -/
def ctaText (low : String) : Bool :=
  subStr "suscríbete" low || subStr "hazte suscriptor" low ||
    subStr "inicia sesión" low

/-- `ElMundo._body_from_dom`. -/
def body_from_dom (soup : Soup) : String :=
  match soup.domNodes with
  | none => ""
  | some ns =>
    let parts := ns.filter (fun txt =>
      if txt = "" then false
      else if ctaText (lowerStr txt) then false
      else if txt.length < 35 then false
      else true)
    clean_text (joinWith "\n\n" parts)

/-- `ElMundo._extract_body`: the structured body when non-empty and at
least 300 characters, otherwise the DOM result. -/
def extract_body (soup : Soup) : String :=
  let body := body_from_jsonld soup.jsonld
  if body ≠ "" ∧ 300 ≤ body.length then body
  else body_from_dom soup

end ElMundo

/-! ## ElPais crawler (`webScrapping/crawlers/ElPais.py`)

The `_body` cascade is embedded; `domNodes` holds the texts of the
`h2, h3, p, blockquote` nodes under the selected container after the
decompose pass. -/

namespace ElPais

/-- A fetched article page, restricted to what `_body` reads. -/
structure Soup where
  jsonld : List (Option Json)
  domNodes : Option (List String)
deriving Repr

/-- The type test of `ElPais._body`: `o.get("@type")` compared directly to
the article-type tuple, without the list unwrapping and without the `type`
fallback key used by other crawlers. -/
def typeOk (o : Json) : Bool :=
  match jget o "@type" with
  | some (.str s) => s ∈ articleTypes
  | _ => false

/-- The JSON-LD tier of `ElPais._body`: the first article-typed object with
a non-blank `articleBody` string wins, with no length condition. -/
def bodyFromJsonld (scripts : List (Option Json)) : Option String :=
  scripts.findSome? (fun s? => s?.bind (fun data =>
    (snapshotCandidates data).findSome? (fun o =>
      if isJObj o ∧ typeOk o then
        match jget o "articleBody" with
        | some (.str b) => if stripStr b ≠ "" then some (clean_text b) else none
        | _ => none
      else none)))

/-- The paywall/CTA node filter of the DOM tier of `ElPais._body`. -/
def ctaText (low : String) : Bool :=
  subStr "suscríbete" low || subStr "suscrib" low || subStr "inicia sesión" low

/-- The DOM tier of `ElPais._body`. -/
def bodyFromDom (soup : Soup) : String :=
  match soup.domNodes with
  | none => ""
  | some ns =>
    let parts := ns.filter (fun txt =>
      if txt = "" ∨ txt.length < 35 then false
      else if ctaText (lowerStr txt) then false
      else true)
    clean_text (joinWith "\n\n" parts)

/-- `ElPais._body`: any non-blank structured body is returned immediately;
the DOM tier runs only when no script yields one. -/
def body (soup : Soup) : String :=
  match bodyFromJsonld soup.jsonld with
  | some b => b
  | none => bodyFromDom soup

end ElPais

/-! ## Shared discovery and crawl loop shapes -/

/-- The anchor loop shared by the home-page discoverers (`_home_links`):
strip each `href`, keep those the classifier accepts, resolve them, and
deduplicate through a threaded `seen` set; returns the new URLs in order
together with the updated `seen` state. -/
def linkAccum (valid : String → Bool) (resolve : String → String) :
    List String → List String → List String × List String
  | [], seen => ([], seen)
  | a :: rest, seen =>
    let href := stripStr a
    if valid href then
      let u := resolve href
      if u ∈ seen then linkAccum valid resolve rest seen
      else
        let r := linkAccum valid resolve rest (u :: seen)
        (u :: r.1, r.2)
    else linkAccum valid resolve rest seen

/-- The accumulating per-URL crawl loop (`out.append(...)`) shared by the
crawlers. -/
def accLoop {β : Type} (process : String → Option β) :
    List String → List β → List β
  | [], acc => acc
  | l :: rest, acc =>
    match process l with
    | none => accLoop process rest acc
    | some r => accLoop process rest (acc ++ [r])

/-- Mild text normalisation used by `OkDiario._clean` and
`InfoLibre._clean_text`: the three whitespace substitutions and a strip, with
no entity unescaping. -/
def clean_basic (s : String) : String :=
  String.mk (trimChars (subManyHWs (subManyNewlines (subWsNewline s.data))))

/-- Does the path end in the given separator followed by at least `minD`
digits (the `SEP\d{minD,}$` article patterns)? -/
def endsSepDigits (sep : Char) (minD : Nat) (path : String) : Bool :=
  let r := path.data.reverse
  let ds := r.takeWhile (fun c => (digitVal c).isSome)
  minD ≤ ds.length ∧ (r.drop ds.length).head? = some sep

/-! ## ElPlural crawler (`webScrapping/crawlers/ElPlural.py`) -/

namespace ElPlural

/-- Newspaper name constant. -/
def newspaper : String := "ElPlural"

/-- A fetched page, at the level of what `ElPlural.py` reads: all anchor
`href` attributes, the title candidates, and the paragraph texts of the
selected body container after the decompose pass (`none` when no container
matched). -/
structure Soup where
  anchors : List String
  h1Text : Option String
  ogTitle : Option String
  titleText : Option String
  containerPs : Option (List String)
deriving Repr

/-- `ElPlural._is_article`: note that an empty network location (relative
reference) is allowed, only four deny substrings are checked, and the
article pattern is `_\d{6,}$`. -/
def is_article (selfUrl href0 : String) : Bool :=
  if href0 = "" then false
  else
    let href := stripStr href0
    if startsWith "#" href || startsWith "javascript:" (lowerStr href) then false
    else
      let absUrl := urljoin selfUrl href
      let netloc := urlNetloc absUrl
      if netloc ≠ "" ∧ ¬ subStr "elplural.com" (lowerStr netloc) then false
      else
        let path := urlPath absUrl
        if path = "" ∨ path = "/" then false
        else
          let low := lowerStr path
          if subStr "/registro" low || subStr "/buscador" low ||
              subStr "/alta-newsletter" low || subStr "/tus-datos" low then false
          else endsSepDigits '_' 6 path

/-- `ElPlural._home_links`. -/
def home_links (selfUrl : String) (soup : Soup) : List String :=
  (linkAccum (is_article selfUrl) (urljoin selfUrl) soup.anchors []).1

/-- `ElPlural._title`: heading, then `og:title`, then the title element. -/
def title (soup : Soup) : String :=
  if (soup.h1Text.getD "") ≠ "" then soup.h1Text.getD ""
  else if (soup.ogTitle.getD "") ≠ "" then stripStr (soup.ogTitle.getD "")
  else soup.titleText.getD ""

/-- `ElPlural._body`: paragraphs of at least 25 characters joined and
stripped.  The final source line `return body if len(body) >= 250 else body`
returns the same value on both branches and is embedded as written. -/
def body (soup : Soup) : String :=
  match soup.containerPs with
  | none => ""
  | some ps =>
    let parts := ps.filter (fun txt =>
      if txt ≠ "" ∧ 25 ≤ txt.length then true else false)
    let b := stripStr (joinWith "\n\n" parts)
    if 250 ≤ b.length then b else b

/-- The per-URL body of the loop of `ElPlural.crawl`: only a non-empty
title and a non-empty body are required.  `fecha` is the `self.fecha`
attribute of the `Crawler` base class.  Modelled from the spec: the
`Crawler` base module is not part of the crawled sources; per the output
schema it supplies the crawl-day date string. -/
def processLink (fetch : String → Option Soup) (fecha : String)
    (genId : String → String) (link : String) :
    Option (List (String × String)) :=
  match fetch link with
  | none => none
  | some soup =>
    let t := title soup
    let b := body soup
    if t = "" ∨ b = "" then none
    else
      some [("id", genId link), ("newspaper", newspaper), ("date", fecha),
            ("url", link), ("title", t), ("body", b)]

/-- `ElPlural.crawl`. -/
def crawl (selfUrl : String) (fetch : String → Option Soup) (fecha : String)
    (genId : String → String) (maxNews : Nat) :
    List (List (String × String)) :=
  match fetch selfUrl with
  | none => []
  | some home =>
    accLoop (processLink fetch fecha genId)
      ((home_links selfUrl home).take maxNews) []

end ElPlural

/-! ## OkDiario crawler (`webScrapping/crawlers/OkDiario.py`) -/

namespace OkDiario

/-- Newspaper name constant. -/
def newspaper : String := "OkDiario"

/-- One `section.rowContent` block of the home page: the text of its
`header.cintillo` (if any) and its anchor `href` attributes. -/
structure Section where
  header : Option String
  anchors : List String
deriving Repr

/-- A fetched page, at the level of what `OkDiario.py` reads.  For an
article page, `rootPs` holds the paragraph texts of the selected root
container after the decompose pass, `artPs` those of `find("article")`
after the fallback decompose pass, and `artIsRoot` tells whether that
article node is the root itself (the `art is not root` identity test). -/
structure Soup where
  sections : List Section
  allAnchors : List String
  h1Text : Option String
  ogTitle : Option String
  titleText : Option String
  rootPs : Option (List String)
  artPs : Option (List String)
  artIsRoot : Bool
deriving Repr

/-- `OkDiario._is_article`: exact network-location match against
`okdiario.com`, five deny substrings, article pattern `-\d{6,}$` on the
lower-cased path. -/
def is_article (selfUrl href0 : String) : Bool :=
  if href0 = "" then false
  else
    let href := stripStr href0
    if startsWith "#" href || startsWith "javascript:" (lowerStr href) then false
    else
      let absUrl := urljoin selfUrl href
      if lowerStr (urlNetloc absUrl) ≠ "okdiario.com" then false
      else
        let path := lowerStr (urlPath absUrl)
        if subStr "/login" path || subStr "/registro" path ||
            subStr "/suscripcion" path || subStr "/newsletter" path ||
            subStr "/okclub" path || subStr "/okshopping" path then false
        else endsSepDigits '-' 6 path

/-- Does a section header carry the `OK AL DÍA` stop marker? -/
def stopHeader (sec : Section) : Bool :=
  match sec.header with
  | none => false
  | some h =>
    let txt := lowerStr h
    subStr "ok al día" txt || subStr "ok al dia" txt

/-- The section loop of `OkDiario._home_links`: stops at the `OK AL DÍA`
banner, accumulating links through one shared `seen` set. -/
def homeLoopAux (selfUrl : String) :
    List Section → List String → List String × List String
  | [], seen => ([], seen)
  | sec :: rest, seen =>
    if stopHeader sec then ([], seen)
    else
      let r := linkAccum (is_article selfUrl) (urljoin selfUrl) sec.anchors seen
      let r2 := homeLoopAux selfUrl rest r.2
      (r.1 ++ r2.1, r2.2)

/-- `OkDiario._home_links`: the section scan, extended by a whole-page
anchor scan when it yielded fewer than 10 links. -/
def home_links (selfUrl : String) (soup : Soup) : List String :=
  let m := homeLoopAux selfUrl soup.sections []
  if m.1.length < 10 then
    m.1 ++ (linkAccum (is_article selfUrl) (urljoin selfUrl) soup.allAnchors m.2).1
  else m.1

/-- `OkDiario._title`. -/
def title (soup : Soup) : String :=
  if (soup.h1Text.getD "") ≠ "" then soup.h1Text.getD ""
  else if (soup.ogTitle.getD "") ≠ "" then stripStr (soup.ogTitle.getD "")
  else soup.titleText.getD ""

/-- `OkDiario._body`: paragraphs of at least 25 characters from the root
container; when the result is shorter than 250 characters and a distinct
`<article>` node exists, the same scan over it replaces the body only if
strictly longer. -/
def body (soup : Soup) : String :=
  match soup.rootPs with
  | none => ""
  | some rps =>
    let ps := rps.filter (fun t => if t ≠ "" ∧ 25 ≤ t.length then true else false)
    let b := clean_basic (joinWith "\n\n" ps)
    if b.length < 250 then
      match soup.artPs with
      | none => b
      | some aps =>
        if soup.artIsRoot then b
        else
          let ps2 := aps.filter (fun t => if t ≠ "" ∧ 25 ≤ t.length then true else false)
          let alt := clean_basic (joinWith "\n\n" ps2)
          if b.length < alt.length then alt else b
    else b

/-- The per-URL body of the loop of `OkDiario.crawl`: only a non-empty
title and a non-empty body are required; there is no length threshold and
no freshness check.  `fecha` is the `self.fecha` attribute of the `Crawler`
base class.  Modelled from the spec: the `Crawler` base module is not part
of the crawled sources; per the output schema it supplies the crawl-day
date string. -/
def processLink (fetch : String → Option Soup) (fecha : String)
    (genId : String → String) (link : String) :
    Option (List (String × String)) :=
  match fetch link with
  | none => none
  | some soup =>
    let t := title soup
    let b := body soup
    if t = "" ∨ b = "" then none
    else
      some [("id", genId link), ("newspaper", newspaper), ("date", fecha),
            ("url", link), ("title", t), ("body", b)]

/-- `OkDiario.crawl`. -/
def crawl (selfUrl : String) (fetch : String → Option Soup) (fecha : String)
    (genId : String → String) (maxNews : Nat) :
    List (List (String × String)) :=
  match fetch selfUrl with
  | none => []
  | some home =>
    accLoop (processLink fetch fecha genId)
      ((home_links selfUrl home).take maxNews) []

end OkDiario

/-! ## Corpus deduplication (`webScrapping/clean_json.py`) -/

/-- A corpus record as far as the deduplication pass looks at it: the
optional `id` field (`none` models a missing or `null` id) and an opaque
stand-in for the other fields, so that distinct records with equal ids stay
distinguishable. -/
structure NewsRec where
  id : Option String
  payload : Nat
deriving Repr, DecidableEq

/-- The deduplication loop of `clean_json.py`: keep a record when its id is
truthy (present and non-empty) and not seen before. -/
def cleanLoop : List NewsRec → List String → List NewsRec
  | [], _ => []
  | n :: ns, seen =>
    match n.id with
    | some i =>
      if i ≠ "" ∧ i ∉ seen then n :: cleanLoop ns (i :: seen)
      else cleanLoop ns seen
    | none => cleanLoop ns seen

/-- The whole pass of `clean_json.py` on a loaded corpus array. -/
def clean_json (news : List NewsRec) : List NewsRec :=
  cleanLoop news []

/-! ## Specification-side definitions

These definitions follow the wording of the specification (not the source)
and are compared against the embedded code in the claim theorems. -/

/-- Fuel-based helper for `firstOcc`; the fuel always dominates the list
length, and filtering only shortens the list. -/
def firstOccAux {α : Type} [DecidableEq α] : Nat → List α → List α
  | 0, _ => []
  | _ + 1, [] => []
  | fuel + 1, x :: xs =>
    x :: firstOccAux fuel (xs.filter (fun y => decide (y ≠ x)))

/-- Written from the specification of discovery order and uniqueness: keep
each element at the position of its first occurrence and delete its later
duplicates, preserving the order of everything else. -/
def firstOcc {α : Type} [DecidableEq α] (l : List α) : List α :=
  firstOccAux l.length l

/-- Is the id of a record truthy in the Python sense (present and
non-empty)? -/
def truthyId (n : NewsRec) : Bool :=
  match n.id with
  | some i => i ≠ ""
  | none => false

/-- Fuel-based helper for `specDedup`. -/
def specDedupAux : Nat → List NewsRec → List NewsRec
  | 0, _ => []
  | _ + 1, [] => []
  | fuel + 1, n :: ns =>
    if truthyId n then
      n :: specDedupAux fuel (ns.filter (fun m => decide (m.id ≠ n.id)))
    else specDedupAux fuel ns

/-- Written from the claim about corpus deduplication: in input order,
exactly the first occurrence of each record with a truthy id survives, and
records with a missing, null or empty id are dropped entirely. -/
def specDedup (l : List NewsRec) : List NewsRec :=
  specDedupAux l.length l

/-- Does the record's id avoid the given seen set (records with no id pass
trivially, since the loop drops them on other grounds)? -/
def notSeenId (s : List String) (m : NewsRec) : Bool :=
  match m.id with
  | some i => decide (i ∉ s)
  | none => true

/-- Written from the specification of freshness: the resolved timestamp's
calendar date, recomputed in the publisher's canonical timezone, compared
with the current date in that same timezone; a naive timestamp is read as
local time of that zone, as specified for naive normalisation. -/
def specIsToday (tz : Int → Int) (d : DT) (now : Int) : Bool :=
  match d.offset with
  | some off => decide (dateInTz tz (d.instantAt off) = dateInTz tz now)
  | none => decide (d.dateTriple = dateInTz tz now)

/-- The valid resolved article links of one seed page of `ABC.py`, in
anchor order and without deduplication (the raw stream that discovery
deduplicates). -/
def abcValidLinks (selfUrl : String) (anchors : List String) : List String :=
  ((anchors.map stripStr).filter (ABC.is_valid_article_url selfUrl)).map
    (urljoin selfUrl)

/-! ## Concrete documents used by the claim theorems -/

/-- A clean 334-character paragraph (above every body threshold). -/
def para334 : String :=
  "Lorem ipsum dolor sit amet, consectetur adipiscing elit, sed do eiusmod tempor incididunt ut labore et dolore magna aliqua. Ut enim ad minim veniam, quis nostrud exercitation ullamco laboris nisi ut aliquip ex ea commodo consequat. Duis aute irure dolor in reprehenderit in voluptate velit esse cillum dolore eu fugiat nulla pariatur."

/-- A clean 37-character paragraph (above the per-node floors, far below the
body thresholds). -/
def para37 : String :=
  "Texto corto de prueba para el cuerpo."

/-- A clean 40-character paragraph. -/
def para40 : String :=
  "Parrafo breve de relleno para la prueba."

/-- A clean paragraph between the per-node floor and the 300-character body
threshold. -/
def paraMid : String :=
  "La comision estudio el expediente durante la sesion de la tarde y los portavoces pidieron explicaciones sobre el estado de las obras del polideportivo municipal, que acumulan varios meses de retraso segun el informe tecnico presentado."

/-- Noon UTC on 2026-02-04, the reference crawl instant. -/
def nowFeb4 : Int :=
  DT.instantAt ⟨2026, 2, 4, 12, 0, 0, some 0⟩ 0

/-- A valid ABC article URL carrying a 2026-02-04 stamp. -/
def abcLinkEx : String :=
  "https://www.abc.es/espana/cosa-20260204090000-nt.html"

/-- An ABC article page dated 2026-02-04 with a long body paragraph. -/
def abcDocEx : ABC.Soup :=
  { anchors := []
    jsonld := [some (Json.obj
      [("@type", Json.str "NewsArticle"),
       ("datePublished", Json.str "2026-02-04T10:00:00Z")])]
    timeAttr := none
    h1Text := some "Titular de prueba"
    ogTitle := none
    titleText := none
    article := some { vocPs := [para334], allPs := [para334], altPs := [] } }

/-- Fetch oracle serving exactly the ABC example article. -/
def abcFetchEx : String → Option ABC.Soup :=
  fun u => if u = abcLinkEx then some abcDocEx else none

/-- The record `ABC.crawl` builds from `abcDocEx`. -/
def abcRecEx : List (String × String) :=
  [("id", "id-1"), ("headline", "Titular de prueba"), ("body", para334),
   ("link", abcLinkEx), ("date", "04-02-2026"), ("bias", "N"),
   ("newspaper", "ABC")]

/-- An ABC article page dated 2026-02-04 whose primary container yields a
short body while the whole-article fallback yields a long one. -/
def abcShortDoc : ABC.Soup :=
  { anchors := []
    jsonld := [some (Json.obj
      [("@type", Json.str "NewsArticle"),
       ("datePublished", Json.str "2026-02-04T10:00:00Z")])]
    timeAttr := none
    h1Text := some "Titular de prueba"
    ogTitle := none
    titleText := none
    article := some { vocPs := [para40], allPs := [para40], altPs := [para334] } }

/-- An ABC page with no date source at all. -/
def abcNoDateDoc : ABC.Soup :=
  { anchors := [], jsonld := [], timeAttr := none, h1Text := none,
    ogTitle := none, titleText := none, article := none }

/-- A JSON-LD article node carrying both date fields, with different
values. -/
def objBothDates : Json :=
  Json.obj
    [("@type", Json.str "NewsArticle"),
     ("dateModified", Json.str "2026-02-04T10:00:00Z"),
     ("datePublished", Json.str "2026-01-01T00:00:00Z")]

/-- A timestamp at 23:59:59 Madrid time on 2026-02-04, stored in UTC. -/
def dtLateMadrid : DT :=
  ⟨2026, 2, 4, 22, 59, 59, some 0⟩

/-- The instant 2026-02-04 23:30 UTC, which is already 2026-02-05 00:30 in
Madrid. -/
def nowPastMadridMidnight : Int :=
  DT.instantAt ⟨2026, 2, 4, 23, 30, 0, some 0⟩ 0

/-- A valid ElPlural article URL. -/
def plLink : String :=
  "https://www.elplural.com/politica/noticia_1234567"

/-- The ElPlural home page with one article anchor. -/
def plHome : ElPlural.Soup :=
  { anchors := ["/politica/noticia_1234567"], h1Text := none, ogTitle := none,
    titleText := none, containerPs := none }

/-- An ElPlural article page whose container yields one short paragraph. -/
def plArt : ElPlural.Soup :=
  { anchors := [], h1Text := some "Titular breve", ogTitle := none,
    titleText := none, containerPs := some [para37] }

/-- Fetch oracle for the ElPlural run. -/
def plFetch : String → Option ElPlural.Soup :=
  fun u =>
    if u = "https://www.elplural.com/" then some plHome
    else if u = plLink then some plArt
    else none

/-- The record `ElPlural.crawl` builds from `plArt`. -/
def plRec : List (String × String) :=
  [("id", "u1"), ("newspaper", "ElPlural"), ("date", "04-02-2026"),
   ("url", plLink), ("title", "Titular breve"), ("body", para37)]

/-- A valid OkDiario article URL. -/
def okLink : String :=
  "https://okdiario.com/espana/cosa-1234567"

/-- The OkDiario home page with one article anchor in one section. -/
def okHome : OkDiario.Soup :=
  { sections := [{ header := none, anchors := ["/espana/cosa-1234567"] }]
    allAnchors := ["/espana/cosa-1234567"]
    h1Text := none, ogTitle := none, titleText := none
    rootPs := none, artPs := none, artIsRoot := false }

/-- An OkDiario article page with one short paragraph. -/
def okArt : OkDiario.Soup :=
  { sections := [], allAnchors := []
    h1Text := some "Titular ok", ogTitle := none, titleText := none
    rootPs := some [para37], artPs := none, artIsRoot := true }

/-- Fetch oracle for the OkDiario run. -/
def okFetch : String → Option OkDiario.Soup :=
  fun u =>
    if u = "https://okdiario.com/" then some okHome
    else if u = okLink then some okArt
    else none

/-- The record `OkDiario.crawl` builds from `okArt`. -/
def okRec : List (String × String) :=
  [("id", "u1"), ("newspaper", "OkDiario"), ("date", "04-02-2026"),
   ("url", okLink), ("title", "Titular ok"), ("body", para37)]

/-- An ElPais page whose JSON-LD body is far below the 300-character
threshold while the DOM container holds a long body. -/
def epShortDoc : ElPais.Soup :=
  { jsonld := [some (Json.obj
      [("@type", Json.str "NewsArticle"),
       ("articleBody", Json.str "Cuerpo corto.")])]
    domNodes := some [para334] }

/-- An ElMundo page whose JSON-LD body is above the threshold. -/
def emLongDoc : ElMundo.Soup :=
  { jsonld := [some (Json.obj
      [("@type", Json.str "NewsArticle"),
       ("articleBody", Json.str para334)])]
    domNodes := some [para40] }

/-- An ElMundo page whose JSON-LD body is below the 300-character threshold
but still longer than the DOM result. -/
def emMidDoc : ElMundo.Soup :=
  { jsonld := [some (Json.obj
      [("@type", Json.str "NewsArticle"),
       ("articleBody", Json.str paraMid)])]
    domNodes := some [para40] }

/-- A LaRazon article URL without the `p7m` service marker. -/
def lrLink : String :=
  "https://www.larazon.es/salud/cosa_2026020469837c622f00a04688f78f3c.html"

/-! ## Helper lemmas about ordered deduplication -/

/-- The dedup loop only looks at membership of the seen state. -/
theorem dedupSeen_congr {α : Type} [DecidableEq α] :
    ∀ (l s t : List α), (∀ a, a ∈ s ↔ a ∈ t) →
      dedupSeen l s = dedupSeen l t
  | [], _, _, _ => rfl
  | x :: xs, s, t, h => by
    by_cases hx : x ∈ s
    · rw [dedupSeen, dedupSeen, if_pos hx, if_pos ((h x).mp hx)]
      exact dedupSeen_congr xs s t h
    · rw [dedupSeen, dedupSeen, if_neg hx, if_neg (fun hxt => hx ((h x).mpr hxt))]
      exact congrArg (x :: ·)
        (dedupSeen_congr xs (x :: s) (x :: t) (fun a => by
          simp only [List.mem_cons, h a]))

/-- Membership in the dedup output. -/
theorem mem_dedupSeen {α : Type} [DecidableEq α] :
    ∀ (l s : List α) (a : α), a ∈ dedupSeen l s ↔ a ∈ l ∧ a ∉ s
  | [], s, a => by simp [dedupSeen]
  | x :: xs, s, a => by
    have hsub : a = x → x ∈ s → a ∈ s := fun h hx => h ▸ hx
    by_cases hx : x ∈ s
    · rw [dedupSeen, if_pos hx, mem_dedupSeen xs s a]
      simp only [List.mem_cons]
      tauto
    · rw [dedupSeen, if_neg hx]
      simp only [List.mem_cons, mem_dedupSeen xs (x :: s) a]
      by_cases hax : a = x
      · subst hax
        tauto
      · tauto

/-- Splitting the dedup loop over an append: the second half has seen
everything of the first. -/
theorem dedupSeen_append {α : Type} [DecidableEq α] :
    ∀ (l1 l2 s : List α),
      dedupSeen (l1 ++ l2) s = dedupSeen l1 s ++ dedupSeen l2 (l1 ++ s)
  | [], l2, s => rfl
  | x :: xs, l2, s => by
    show dedupSeen (x :: (xs ++ l2)) s = _
    by_cases hx : x ∈ s
    · rw [dedupSeen, if_pos hx, dedupSeen, if_pos hx,
        dedupSeen_append xs l2 s]
      refine congrArg (dedupSeen xs s ++ ·) (dedupSeen_congr l2 (xs ++ s) ((x :: xs) ++ s) ?_)
      intro a
      show a ∈ xs ++ s ↔ a ∈ x :: (xs ++ s)
      simp only [List.mem_append, List.mem_cons]
      have : a = x → a ∈ s := fun h => h ▸ hx
      tauto
    · rw [dedupSeen, if_neg hx, dedupSeen, if_neg hx,
        dedupSeen_append xs l2 (x :: s), List.cons_append]
      refine congrArg (fun t => x :: (dedupSeen xs (x :: s) ++ t))
        (dedupSeen_congr l2 (xs ++ x :: s) ((x :: xs) ++ s) ?_)
      intro a
      show a ∈ xs ++ x :: s ↔ a ∈ x :: (xs ++ s)
      simp only [List.mem_append, List.mem_cons]
      tauto

/-- Re-deduplicating an already deduplicated list just merges the two seen
states. -/
theorem dedupSeen_idem {α : Type} [DecidableEq α] :
    ∀ (l t s : List α), dedupSeen (dedupSeen l t) s = dedupSeen l (s ++ t)
  | [], t, s => rfl
  | x :: xs, t, s => by
    have hmem : x ∈ s ++ t ↔ x ∈ s ∨ x ∈ t := List.mem_append
    by_cases hxt : x ∈ t
    · rw [dedupSeen, if_pos hxt, dedupSeen, if_pos (hmem.mpr (Or.inr hxt))]
      exact dedupSeen_idem xs t s
    · by_cases hxs : x ∈ s
      · rw [dedupSeen, if_neg hxt, dedupSeen, if_pos hxs, dedupSeen,
          if_pos (hmem.mpr (Or.inl hxs)), dedupSeen_idem xs (x :: t) s]
        refine dedupSeen_congr xs (s ++ x :: t) (s ++ t) (fun a => ?_)
        simp only [List.mem_append, List.mem_cons]
        have : a = x → a ∈ s := fun h => h ▸ hxs
        tauto
      · have hxst : x ∉ s ++ t := fun h => by
          rcases hmem.mp h with h | h
          · exact hxs h
          · exact hxt h
        rw [dedupSeen, if_neg hxt, dedupSeen, if_neg hxs, dedupSeen,
          if_neg hxst, dedupSeen_idem xs (x :: t) (x :: s)]
        refine congrArg (x :: ·)
          (dedupSeen_congr xs ((x :: s) ++ x :: t) (x :: (s ++ t)) (fun a => ?_))
        show a ∈ x :: (s ++ x :: t) ↔ _
        simp only [List.mem_append, List.mem_cons]
        tauto

/-- The dedup output has no duplicates. -/
theorem dedupSeen_nodup {α : Type} [DecidableEq α] :
    ∀ (l s : List α), (dedupSeen l s).Nodup
  | [], _ => List.nodup_nil
  | x :: xs, s => by
    by_cases hx : x ∈ s
    · rw [dedupSeen, if_pos hx]
      exact dedupSeen_nodup xs s
    · rw [dedupSeen, if_neg hx]
      refine List.nodup_cons.mpr ⟨fun hmem => ?_, dedupSeen_nodup xs (x :: s)⟩
      exact ((mem_dedupSeen xs (x :: s) x).mp hmem).2 (List.mem_cons_self x s)

/-- The pair-returning loop computes the dedup output in its first
component. -/
theorem addNew_fst {α : Type} [DecidableEq α] :
    ∀ (l s : List α), (addNew l s).1 = dedupSeen l s
  | [], _ => rfl
  | x :: xs, s => by
    by_cases hx : x ∈ s
    · rw [addNew, if_pos hx, dedupSeen, if_pos hx]
      exact addNew_fst xs s
    · rw [addNew, if_neg hx, dedupSeen, if_neg hx]
      exact congrArg (x :: ·) (addNew_fst xs (x :: s))

/-- Membership in the final seen state of the pair-returning loop. -/
theorem addNew_snd_mem {α : Type} [DecidableEq α] :
    ∀ (l s : List α) (a : α), a ∈ (addNew l s).2 ↔ a ∈ l ∨ a ∈ s
  | [], s, a => by simp [addNew]
  | x :: xs, s, a => by
    have hsub : a = x → x ∈ s → a ∈ s := fun h hx => h ▸ hx
    by_cases hx : x ∈ s
    · rw [addNew, if_pos hx]
      rw [addNew_snd_mem xs s a]
      simp only [List.mem_cons]
      tauto
    · rw [addNew, if_neg hx]
      show a ∈ (addNew xs (x :: s)).2 ↔ _
      rw [addNew_snd_mem xs (x :: s) a]
      simp only [List.mem_cons]
      tauto

/-- The fuel of firstOccAux is irrelevant once it dominates the length. -/
theorem firstOccAux_fuel {α : Type} [DecidableEq α] :
    ∀ (n m : Nat) (l : List α), l.length ≤ n → l.length ≤ m →
      firstOccAux n l = firstOccAux m l
  | n, m, [], _, _ => by cases n <;> cases m <;> rfl
  | n + 1, m + 1, x :: xs, hn, hm => by
    rw [firstOccAux, firstOccAux]
    refine congrArg (x :: ·) (firstOccAux_fuel n m _ ?_ ?_)
    · exact le_trans (List.length_filter_le _ xs) (Nat.lt_succ_iff.mp hn)
    · exact le_trans (List.length_filter_le _ xs) (Nat.lt_succ_iff.mp hm)
  | 0, _, x :: xs, hn, _ => by simp at hn
  | _ + 1, 0, x :: xs, _, hm => by simp at hm

/-- The dedup loop computes exactly the first occurrences of the elements
not yet seen. -/
theorem dedupSeen_eq_firstOccAux {α : Type} [DecidableEq α] :
    ∀ (n : Nat) (l s : List α), l.length ≤ n →
      dedupSeen l s = firstOccAux n (l.filter (fun y => decide (y ∉ s)))
  | 0, [], s, _ => rfl
  | 0, x :: xs, s, h => by simp at h
  | n + 1, [], s, _ => by simp [dedupSeen, firstOccAux, List.filter_nil]
  | n + 1, x :: xs, s, h => by
    have hlen : xs.length ≤ n := Nat.lt_succ_iff.mp h
    by_cases hx : x ∈ s
    · rw [dedupSeen, if_pos hx, List.filter_cons_of_neg (by simpa using hx)]
      have : xs.length ≤ n + 1 := le_trans hlen (Nat.le_succ n)
      exact dedupSeen_eq_firstOccAux (n + 1) xs s this
    · rw [dedupSeen, if_neg hx, List.filter_cons_of_pos (by simpa using hx),
        firstOccAux]
      refine congrArg (x :: ·) ?_
      rw [dedupSeen_eq_firstOccAux n xs (x :: s) hlen]
      congr 1
      rw [List.filter_filter]
      refine List.filter_congr (fun a _ => ?_)
      simp only [List.mem_cons, decide_not]
      by_cases h1 : a = x <;> by_cases h2 : a ∈ s <;> simp [h1, h2]

/-- From an empty seen state, the dedup loop is the first-occurrence
subsequence of the specification. -/
theorem dedupSeen_eq_firstOcc {α : Type} [DecidableEq α] (l : List α) :
    dedupSeen l [] = firstOcc l := by
  rw [dedupSeen_eq_firstOccAux l.length l [] le_rfl, firstOcc]
  congr 1
  refine List.filter_eq_self.mpr (fun a _ => by simp)

/-! ## Structure lemmas for discovery and the crawl loops -/

/-- The section-link loop of `ABC.py` is the dedup loop over the raw valid
resolved links. -/
theorem sectLoop_eq_dedupSeen (selfUrl : String) :
    ∀ (l s : List String),
      ABC.sectLoop selfUrl l s = dedupSeen (abcValidLinks selfUrl l) s
  | [], _ => rfl
  | a :: rest, s => by
    by_cases hv : ABC.is_valid_article_url selfUrl (stripStr a)
    · rw [ABC.sectLoop]
      simp only [hv, if_true]
      have hlinks : abcValidLinks selfUrl (a :: rest)
          = urljoin selfUrl (stripStr a) :: abcValidLinks selfUrl rest := by
        simp [abcValidLinks, hv]
      rw [hlinks]
      by_cases hs : urljoin selfUrl (stripStr a) ∈ s
      · rw [dedupSeen, if_pos hs]
        simp only [hs, if_true]
        exact sectLoop_eq_dedupSeen selfUrl rest s
      · rw [dedupSeen, if_neg hs]
        simp only [hs, if_false]
        exact congrArg (urljoin selfUrl (stripStr a) :: ·)
          (sectLoop_eq_dedupSeen selfUrl rest _)
    · rw [ABC.sectLoop]
      simp only [hv, if_false]
      have hlinks : abcValidLinks selfUrl (a :: rest) = abcValidLinks selfUrl rest := by
        simp [abcValidLinks, hv]
      rw [hlinks]
      exact sectLoop_eq_dedupSeen selfUrl rest s

/-- The seed loop of `ABC.crawl` is the dedup loop over the concatenation of
the per-seed link lists. -/
theorem discoverFrom_eq (selfUrl : String) (fetch : String → Option ABC.Soup) :
    ∀ (secs : List String) (s : List String),
      ABC.discoverFrom selfUrl fetch secs s
        = dedupSeen ((secs.filterMap fetch).map
            (fun soup => ABC.extract_section_links selfUrl soup)).flatten s
  | [], s => rfl
  | sec :: secs, s => by
    cases hf : fetch sec with
    | none =>
      rw [ABC.discoverFrom]
      simp only [hf, List.filterMap_cons, List.map_cons]
      exact discoverFrom_eq selfUrl fetch secs s
    | some soup =>
      rw [ABC.discoverFrom]
      simp only [hf, List.filterMap_cons, List.map_cons, List.flatten_cons]
      rw [dedupSeen_append, addNew_fst]
      refine congrArg (dedupSeen (ABC.extract_section_links selfUrl soup) s ++ ·) ?_
      rw [discoverFrom_eq selfUrl fetch secs _]
      exact dedupSeen_congr _ _ _ (fun a => by
        rw [addNew_snd_mem]
        simp [List.mem_append])

/-- Deduplicating a concatenation of per-seed deduplicated lists equals
deduplicating the raw concatenation. -/
theorem dedupSeen_flatten_dedup {α : Type} [DecidableEq α] :
    ∀ (ls : List (List α)) (s : List α),
      dedupSeen (ls.map (fun l => dedupSeen l [])).flatten s
        = dedupSeen ls.flatten s
  | [], s => rfl
  | l :: ls, s => by
    simp only [List.map_cons, List.flatten_cons]
    rw [dedupSeen_append, dedupSeen_append, dedupSeen_idem, List.append_nil]
    refine congrArg (dedupSeen l s ++ ·) ?_
    rw [dedupSeen_flatten_dedup ls (dedupSeen l [] ++ s)]
    exact dedupSeen_congr _ _ _ (fun a => by
      simp only [List.mem_append, mem_dedupSeen, List.not_mem_nil]
      tauto)

/-- The discovery phase of `ABC.crawl` computes exactly the first-occurrence
subsequence of the raw valid links of all seeds, in order. -/
theorem abcDiscover_eq_firstOcc (selfUrl : String) (fetch : String → Option ABC.Soup) :
    ABC.discover selfUrl fetch
      = firstOcc (((ABC.SECTION_URLS.filterMap fetch).map
          (fun soup => abcValidLinks selfUrl soup.anchors)).flatten) := by
  rw [ABC.discover, discoverFrom_eq]
  have hmap : (ABC.SECTION_URLS.filterMap fetch).map
      (fun soup => ABC.extract_section_links selfUrl soup)
      = ((ABC.SECTION_URLS.filterMap fetch).map
          (fun soup => abcValidLinks selfUrl soup.anchors)).map
            (fun l => dedupSeen l []) := by
    rw [List.map_map]
    refine List.map_congr_left (fun soup _ => ?_)
    show ABC.extract_section_links selfUrl soup = _
    rw [ABC.extract_section_links, sectLoop_eq_dedupSeen]
    rfl
  rw [hmap, dedupSeen_flatten_dedup, dedupSeen_eq_firstOcc]

/-- The accumulating article loop of `ABC.crawl` is a `filterMap`: each URL
is processed independently and failures are skipped. -/
theorem articleLoop_eq_filterMap (fetch : String → Option ABC.Soup) (now : Int)
    (genId : String → String) :
    ∀ (links : List String) (acc : List (List (String × String))),
      ABC.articleLoop fetch now genId links acc
        = acc ++ links.filterMap (ABC.processLink fetch now genId)
  | [], acc => by simp [ABC.articleLoop]
  | link :: rest, acc => by
    rw [ABC.articleLoop]
    cases hp : ABC.processLink fetch now genId link with
    | none =>
      simp only [List.filterMap_cons, hp]
      exact articleLoop_eq_filterMap fetch now genId rest acc
    | some r =>
      simp only [List.filterMap_cons, hp]
      rw [articleLoop_eq_filterMap fetch now genId rest (acc ++ [r])]
      simp

/-- The fuel of `specDedupAux` is irrelevant once it dominates the length. -/
theorem specDedupAux_fuel :
    ∀ (n m : Nat) (l : List NewsRec), l.length ≤ n → l.length ≤ m →
      specDedupAux n l = specDedupAux m l
  | n, m, [], _, _ => by cases n <;> cases m <;> rfl
  | n + 1, m + 1, x :: xs, hn, hm => by
    rw [specDedupAux, specDedupAux]
    by_cases ht : truthyId x
    · simp only [ht, if_true]
      refine congrArg (x :: ·) (specDedupAux_fuel n m _ ?_ ?_)
      · exact le_trans (List.length_filter_le _ xs) (Nat.lt_succ_iff.mp hn)
      · exact le_trans (List.length_filter_le _ xs) (Nat.lt_succ_iff.mp hm)
    · simp only [ht, if_false]
      exact specDedupAux_fuel n m xs (Nat.lt_succ_iff.mp hn) (Nat.lt_succ_iff.mp hm)
  | 0, _, x :: xs, hn, _ => by simp at hn
  | _ + 1, 0, x :: xs, _, hm => by simp at hm

/-- The dedup loop of `clean_json.py` computes the specification-side
first-occurrence dedup of the records not yet seen. -/
theorem cleanLoop_eq_specDedupAux :
    ∀ (n : Nat) (l : List NewsRec) (s : List String), l.length ≤ n →
      cleanLoop l s = specDedupAux n (l.filter (notSeenId s))
  | 0, [], s, _ => rfl
  | 0, x :: xs, s, h => by simp at h
  | n + 1, [], s, _ => by simp [cleanLoop, specDedupAux, List.filter_nil]
  | n + 1, x :: xs, s, h => by
    have hlen : xs.length ≤ n := Nat.lt_succ_iff.mp h
    have hlen1 : xs.length ≤ n + 1 := le_trans hlen (Nat.le_succ n)
    cases hid : x.id with
    | none =>
      rw [cleanLoop]
      simp only [hid]
      rw [List.filter_cons_of_pos (by simp [notSeenId, hid]), specDedupAux]
      have hfalse : truthyId x = false := by simp [truthyId, hid]
      rw [if_neg (by simp [hfalse])]
      rw [cleanLoop_eq_specDedupAux n xs s hlen]
    | some i =>
      by_cases hkeep : i ≠ "" ∧ i ∉ s
      · rw [cleanLoop]
        simp only [hid]
        rw [if_pos hkeep]
        rw [List.filter_cons_of_pos (by simp [notSeenId, hid, hkeep.2]),
          specDedupAux]
        have htrue : truthyId x = true := by simp [truthyId, hid, hkeep.1]
        rw [if_pos (by simp [htrue])]
        refine congrArg (x :: ·) ?_
        rw [cleanLoop_eq_specDedupAux n xs (i :: s) hlen]
        congr 1
        rw [List.filter_filter]
        refine List.filter_congr (fun m _ => ?_)
        cases hmid : m.id with
        | none => simp [notSeenId, hmid, hid]
        | some j =>
          simp only [notSeenId, hmid, hid, List.mem_cons, decide_not,
            Option.some.injEq]
          by_cases h1 : j = i <;> by_cases h2 : j ∈ s <;> simp [h1, h2]
      · rw [cleanLoop]
        simp only [hid]
        rw [if_neg hkeep]
        by_cases hs : i ∈ s
        · rw [List.filter_cons_of_neg (by simp [notSeenId, hid, hs])]
          exact cleanLoop_eq_specDedupAux (n + 1) xs s hlen1
        · have hi : i = "" := by
            by_contra hne
            exact hkeep ⟨hne, hs⟩
          rw [List.filter_cons_of_pos (by simp [notSeenId, hid, hs]),
            specDedupAux]
          have hfalse : truthyId x = false := by simp [truthyId, hid, hi]
          rw [if_neg (by simp [hfalse])]
          exact cleanLoop_eq_specDedupAux n xs s hlen

/-- The whole `clean_json.py` pass equals the specification-side dedup. -/
theorem clean_json_eq_specDedup (l : List NewsRec) :
    clean_json l = specDedup l := by
  rw [clean_json, specDedup, cleanLoop_eq_specDedupAux l.length l [] le_rfl]
  congr 1
  refine List.filter_eq_self.mpr (fun m _ => ?_)
  cases hmid : m.id <;> simp [notSeenId, hmid]

/-! ## Claim theorems -/

set_option maxRecDepth 1000000

/-- The calendar date of an instant rendered in a fixed offset. -/
theorem dtFromInstant_dateTriple (t off : Int) :
    (dtFromInstant t off).dateTriple
      = civilFromDays (Int.fdiv (t + off * 60) 86400) := by
  show (_, _, _) = _
  rw [dtFromInstant]

/-- C7: for any seed documents in which the same valid article link occurs
more than once, the discovered candidate URL sequence contains that link
exactly once, at the position of its first occurrence, and first-occurrence
order is preserved across all seeds: the discovery phase of `ABC.crawl`
equals the first-occurrence subsequence of the raw valid links of all
fetched seeds and contains no duplicates. -/
theorem claim_C7_discovery_order (selfUrl : String)
    (fetch : String → Option ABC.Soup) :
    ABC.discover selfUrl fetch
      = firstOcc (((ABC.SECTION_URLS.filterMap fetch).map
          (fun soup => abcValidLinks selfUrl soup.anchors)).flatten)
    ∧ (ABC.discover selfUrl fetch).Nodup := by
  refine ⟨abcDiscover_eq_firstOcc selfUrl fetch, ?_⟩
  rw [ABC.discover, discoverFrom_eq]
  exact dedupSeen_nodup _ _

/-- C10: for every input array, the corpus deduplication pass outputs, in
input order, exactly the first occurrence of each record whose id field is
present and truthy; any record whose id is missing, null, or an empty
string is dropped entirely. -/
theorem claim_C10_dedup (l : List NewsRec) :
    clean_json l = specDedup l :=
  clean_json_eq_specDedup l

/-- C6: for every fetch oracle (any combination of failed fetches and
documents), `ABC.crawl` returns the list obtained by processing each
discovered URL independently, and a failed fetch makes the per-URL step
yield nothing, so that URL is merely skipped; in the embedding every
exception site of the source is a recovered `Option` failure, so the public
crawl always returns a (possibly empty) list. -/
theorem claim_C6_crawl_no_escape (selfUrl : String)
    (fetch : String → Option ABC.Soup) (now : Int) (genId : String → String)
    (maxNews : Nat) :
    ABC.crawl selfUrl fetch now genId maxNews
      = ((ABC.discover selfUrl fetch).take maxNews).filterMap
          (ABC.processLink fetch now genId)
    ∧ ∀ link, fetch link = none →
        ABC.processLink fetch now genId link = none := by
  constructor
  · rw [ABC.crawl]
    by_cases h : (ABC.discover selfUrl fetch).isEmpty
    · simp only [h, if_true]
      rw [List.isEmpty_iff] at h
      rw [h]
      simp
    · simp only [h, if_false]
      rw [articleLoop_eq_filterMap]
      simp
  · intro link h
    simp [ABC.processLink, h]

/-- Witness for C6: with an oracle that fails every fetch the crawl returns
the empty list, and the per-URL step of a failed fetch is a skip. -/
theorem claim_C6_witness :
    ABC.crawl "https://www.abc.es/" (fun _ => none) 0 (fun _ => "") 5 = []
    ∧ ABC.processLink (fun _ => none) 0 (fun _ => "") "u" = none := by
  constructor
  · rw [(claim_C6_crawl_no_escape "https://www.abc.es/" (fun _ => none) 0
      (fun _ => "") 5).1]
    rfl
  · exact (claim_C6_crawl_no_escape "https://www.abc.es/" (fun _ => none) 0
      (fun _ => "") 5).2 "u" rfl

/-- Counterexample to C2 as stated: for an article timestamped 23:59:59
Madrid time (22:59:59 UTC) evaluated at 00:30 Madrid time the next local
day (23:30 UTC the same UTC day), `ABC._is_today` still answers `true`,
while the specified Madrid-calendar comparison answers `false`, so the
freshness check is not the Madrid-date comparison for every publisher. -/
theorem claim_C2_counterexample :
    ABC.is_today (some dtLateMadrid) nowPastMadridMidnight = true
    ∧ specIsToday madridOffset dtLateMadrid nowPastMadridMidnight = false := by
  refine ⟨by decide, by decide⟩

/-- C2 (amended): `LaRazon._is_today` agrees exactly with the specified
comparison of calendar dates recomputed in Europe/Madrid (so the 23:59:59
boundary behaves as specified for LaRazon), while `ABC._is_today` compares
the timestamp's stored calendar fields with the current UTC calendar
date. -/
theorem claim_C2_amended :
    (∀ (d : DT) (now : Int),
      LaRazon.is_today (some d) now = specIsToday madridOffset d now)
    ∧ (∀ (d : DT) (now : Int),
      ABC.is_today (some d) now = decide (d.dateTriple = utcDate now)) := by
  constructor
  · intro d now
    cases hoff : d.offset with
    | none => simp [LaRazon.is_today, specIsToday, hoff]
    | some off =>
      simp only [LaRazon.is_today, specIsToday, hoff]
      rw [dtFromInstant_dateTriple]
      rfl
  · intro d now
    rfl

/-- Counterexample to C9 as stated: a page whose tag listing intersects
both the lifestyle deny-set (salud) and the hard-news allow-set (sanidad)
is rejected by `LaRazon._should_skip_article`, although the claim says a
listing that also intersects the allow-set is kept. -/
theorem claim_C9_counterexample :
    LaRazon.should_skip_article (fun _ => false) lrLink "Titular cualquiera"
        ["salud", "sanidad"] = true
    ∧ (["salud", "sanidad"].any
        (fun t => t ∈ LaRazon.LIFESTYLE_TAGS_DENY)) = true
    ∧ (["salud", "sanidad"].any
        (fun t => t ∈ LaRazon.HARD_NEWS_TAGS_HINT)) = true := by
  refine ⟨by decide, by decide, by decide⟩

/-- C9 (amended): for an article URL without the `p7m` service marker, a
tag listing that intersects the lifestyle deny-set is always rejected,
regardless of the allow-set; the hard-news allow-set is consulted only when
no deny tag is present, in which case the article is kept (bypassing the
headline heuristic). -/
theorem claim_C9_amended (howto : String → Bool) (link headline : String)
    (tags : List String)
    (hlink : (subStr "-p7m_" (lowerStr link)
      || subStr "_p7m_" (lowerStr link)) = false) :
    (tags.any (fun t => t ∈ LaRazon.LIFESTYLE_TAGS_DENY) = true →
      LaRazon.should_skip_article howto link headline tags = true)
    ∧ (tags.any (fun t => t ∈ LaRazon.LIFESTYLE_TAGS_DENY) = false →
       tags.any (fun t => t ∈ LaRazon.HARD_NEWS_TAGS_HINT) = true →
      LaRazon.should_skip_article howto link headline tags = false) := by
  constructor
  · intro hdeny
    simp [LaRazon.should_skip_article, hlink, hdeny]
  · intro hdeny hallow
    simp [LaRazon.should_skip_article, hlink, hdeny, hallow]

/-- Witness for C9 (amended): a deny-tagged page is rejected and an
allow-tagged page without deny tags is kept. -/
theorem claim_C9_witness :
    LaRazon.should_skip_article (fun _ => false) lrLink "Titular" ["salud"] = true
    ∧ LaRazon.should_skip_article (fun _ => false) lrLink "Titular" ["sanidad"]
        = false := by
  constructor
  · exact (claim_C9_amended (fun _ => false) lrLink "Titular" ["salud"]
      (by decide)).1 (by decide)
  · exact (claim_C9_amended (fun _ => false) lrLink "Titular" ["sanidad"]
      (by decide)).2 (by decide) (by decide)

/-- Counterexample to C4 as stated: `ElPais._body` returns a 13-character
structured body unchanged even though it is far below the 300-character
threshold and the DOM tier would have produced a long body, so the
extractor does not escalate exactly when the structured candidate is below
the threshold. -/
theorem claim_C4_counterexample :
    ElPais.bodyFromJsonld epShortDoc.jsonld = some "Cuerpo corto."
    ∧ ("Cuerpo corto." : String).length < 300
    ∧ ElPais.body epShortDoc = "Cuerpo corto."
    ∧ 300 ≤ (ElPais.bodyFromDom epShortDoc).length := by
  refine ⟨by decide, by decide, by decide, by decide⟩

/-- C4 (amended): `ElMundo._extract_body` returns the normalised
structured body exactly when it is non-empty and at least 300 characters
and otherwise escalates to the DOM tier, while `ElPais._body` returns any
non-blank structured body immediately with no threshold check and never
escalates past it. -/
theorem claim_C4_amended :
    (∀ soup : ElMundo.Soup,
      (ElMundo.body_from_jsonld soup.jsonld ≠ ""
          ∧ 300 ≤ (ElMundo.body_from_jsonld soup.jsonld).length →
        ElMundo.extract_body soup = ElMundo.body_from_jsonld soup.jsonld)
      ∧ (¬(ElMundo.body_from_jsonld soup.jsonld ≠ ""
          ∧ 300 ≤ (ElMundo.body_from_jsonld soup.jsonld).length) →
        ElMundo.extract_body soup = ElMundo.body_from_dom soup))
    ∧ (∀ (soup : ElPais.Soup) (b : String),
        ElPais.bodyFromJsonld soup.jsonld = some b → ElPais.body soup = b) := by
  constructor
  · intro soup
    constructor
    · intro h
      rw [ElMundo.extract_body]
      exact if_pos h
    · intro h
      rw [ElMundo.extract_body]
      exact if_neg h
  · intro soup b h
    rw [ElPais.body, h]

/-- Witness for C4 (amended): a long structured body is returned unchanged
by ElMundo, and a short structured body is returned unchanged by
ElPais. -/
theorem claim_C4_witness :
    ElMundo.extract_body emLongDoc = ElMundo.body_from_jsonld emLongDoc.jsonld
    ∧ ElPais.body epShortDoc = "Cuerpo corto." := by
  constructor
  · exact (claim_C4_amended.1 emLongDoc).1 ⟨by decide, by decide⟩
  · exact claim_C4_amended.2 epShortDoc "Cuerpo corto." (by decide)

/-- Counterexample to C5 as stated: on a page whose structured body has
235 characters (below the 300 threshold) and whose DOM tier yields only 40
characters, `ElMundo._extract_body` returns the 40-character DOM result,
which is shorter than the best single-tier candidate it computed. -/
theorem claim_C5_counterexample :
    ElMundo.body_from_jsonld emMidDoc.jsonld = paraMid
    ∧ ElMundo.extract_body emMidDoc = para40
    ∧ (para40 : String).length < paraMid.length := by
  refine ⟨by decide, by decide, by decide⟩

/-- C5 (amended): the short-body fallback inside `ABC.crawl` is monotone:
the final body is never shorter than the extracted body, and when the
fallback runs it is never shorter than the alternate whole-article
candidate either (ABC keeps the longer candidate; ElMundo does not, per the
counterexample). -/
theorem claim_C5_amended (soup : ABC.Soup) :
    (ABC.extract_body soup).length ≤ (ABC.bodyWithFallback soup).length
    ∧ (ABC.is_probably_paywalled (ABC.extract_body soup) = true →
        ∀ a, ABC.altBody soup = some a →
          a.length ≤ (ABC.bodyWithFallback soup).length) := by
  rw [ABC.bodyWithFallback]
  by_cases hp : ABC.is_probably_paywalled (ABC.extract_body soup)
  · simp only [hp, if_true]
    cases halt : ABC.altBody soup with
    | none =>
      refine ⟨le_refl _, fun _ a ha => ?_⟩
      exact absurd ha (by simp)
    | some alt =>
      by_cases hlt : (ABC.extract_body soup).length < alt.length
      · simp only [hlt, if_true]
        refine ⟨le_of_lt hlt, fun _ a ha => ?_⟩
        cases ha
        exact le_refl _
      · simp only [hlt, if_false]
        refine ⟨le_refl _, fun _ a ha => ?_⟩
        cases ha
        exact Nat.le_of_not_lt hlt
  · simp only [hp, if_false]
    refine ⟨le_refl _, fun hpt => absurd hpt (by simp [hp])⟩

/-- Witness for C5 (amended): on a page with a short primary body and a
long alternate scan, the final ABC body is at least as long as the
alternate candidate. -/
theorem claim_C5_witness :
    para334.length ≤ (ABC.bodyWithFallback abcShortDoc).length :=
  (claim_C5_amended abcShortDoc).2 (by decide) para334 (by decide)

/-- C1 (amended): every record produced by the per-URL step of `ABC.crawl`
has a non-empty headline, a non-empty body of at least 300 characters, and
a resolved date that passed the `_is_today` check at crawl time; the
per-URL step of `ElPlural.crawl` guarantees only a non-empty title and a
non-empty body (no length threshold and no freshness check). -/
theorem claim_C1_amended :
    (∀ (fetch : String → Option ABC.Soup) (now : Int)
        (genId : String → String) (link : String) (r : List (String × String)),
      ABC.processLink fetch now genId link = some r →
        rkey r "headline" ≠ "" ∧ rkey r "body" ≠ ""
        ∧ 300 ≤ (rkey r "body").length
        ∧ ∃ soup dt, fetch link = some soup
            ∧ ABC.extract_date_iso soup link = some dt
            ∧ ABC.is_today (some dt) now = true)
    ∧ (∀ (fetch : String → Option ElPlural.Soup) (fecha : String)
        (genId : String → String) (link : String) (r : List (String × String)),
      ElPlural.processLink fetch fecha genId link = some r →
        rkey r "title" ≠ "" ∧ rkey r "body" ≠ "") := by
  constructor
  · intro fetch now genId link r h
    unfold ABC.processLink at h
    split at h
    · exact absurd h (by simp)
    next soup hf =>
      split at h
      · exact absurd h (by simp)
      next dt hd =>
        split at h
        · exact absurd h (by simp)
        next ht =>
          dsimp only at h
          split at h
          · exact absurd h (by simp)
          next hgate =>
            push_neg at hgate
            push_neg at ht
            cases h
            refine ⟨?_, ?_, ?_, soup, dt, hf, hd, ?_⟩
            · show ABC.extract_title soup ≠ ""
              exact hgate.1
            · show ABC.bodyWithFallback soup ≠ ""
              exact hgate.2.1
            · show 300 ≤ (ABC.bodyWithFallback soup).length
              exact hgate.2.2
            · simpa using ht
  · intro fetch fecha genId link r h
    unfold ElPlural.processLink at h
    split at h
    · exact absurd h (by simp)
    next soup hf =>
      dsimp only at h
      split at h
      · exact absurd h (by simp)
      next hgate =>
        push_neg at hgate
        cases h
        exact ⟨hgate.1, hgate.2⟩

/-- Counterexample to C1 as stated: a full `ElPlural.crawl` run emits a
record whose body has 37 characters, below the 250-character threshold the
claim asserts for every publisher, and with no `headline` key at all. -/
theorem claim_C1_counterexample :
    ElPlural.crawl "https://www.elplural.com/" plFetch "04-02-2026"
        (fun _ => "u1") 100 = [plRec]
    ∧ (rkey plRec "body").length < 250
    ∧ rkey plRec "body" ≠ ""
    ∧ rkey plRec "headline" = "" := by
  refine ⟨by decide, by decide, by decide, by decide⟩

/-- Witness for C1 (amended): a concrete ABC record satisfies the
300-character bound and a concrete ElPlural record has a non-empty
title. -/
theorem claim_C1_witness :
    300 ≤ (rkey abcRecEx "body").length ∧ rkey plRec "title" ≠ "" := by
  constructor
  · exact (claim_C1_amended.1 abcFetchEx nowFeb4 (fun _ => "id-1") abcLinkEx
      abcRecEx (by decide)).2.2.1
  · exact (claim_C1_amended.2 plFetch "04-02-2026" (fun _ => "u1") plLink
      plRec (by decide)).1

/-- C3 (amended): records of `ABC.crawl` carry exactly the keys id,
headline, body, link, date, bias, newspaper, with bias the constant "N"
and date the dd-mm-yyyy rendering of the resolved timestamp; records of
`OkDiario.crawl` instead carry exactly id, newspaper, date, url, title,
body. -/
theorem claim_C3_amended :
    (∀ (fetch : String → Option ABC.Soup) (now : Int)
        (genId : String → String) (link : String) (r : List (String × String)),
      ABC.processLink fetch now genId link = some r →
        recKeys r = ["id", "headline", "body", "link", "date", "bias",
          "newspaper"]
        ∧ rkey r "bias" = "N" ∧ rkey r "newspaper" = "ABC"
        ∧ ∃ soup dt, fetch link = some soup
            ∧ ABC.extract_date_iso soup link = some dt
            ∧ rkey r "date" = ABC.iso_to_ddmmyyyy dt)
    ∧ (∀ (fetch : String → Option OkDiario.Soup) (fecha : String)
        (genId : String → String) (link : String) (r : List (String × String)),
      OkDiario.processLink fetch fecha genId link = some r →
        recKeys r = ["id", "newspaper", "date", "url", "title", "body"]) := by
  constructor
  · intro fetch now genId link r h
    unfold ABC.processLink at h
    split at h
    · exact absurd h (by simp)
    next soup hf =>
      split at h
      · exact absurd h (by simp)
      next dt hd =>
        split at h
        · exact absurd h (by simp)
        next ht =>
          dsimp only at h
          split at h
          · exact absurd h (by simp)
          next hgate =>
            cases h
            exact ⟨rfl, rfl, rfl, soup, dt, hf, hd, rfl⟩
  · intro fetch fecha genId link r h
    unfold OkDiario.processLink at h
    split at h
    · exact absurd h (by simp)
    next soup hf =>
      dsimp only at h
      split at h
      · exact absurd h (by simp)
      next hgate =>
        cases h
        rfl

/-- Counterexample to C3 as stated: a full `OkDiario.crawl` run emits a
record whose keys are id, newspaper, date, url, title, body, with no bias
key and no headline key, so not every crawler emits the claimed schema. -/
theorem claim_C3_counterexample :
    OkDiario.crawl "https://okdiario.com/" okFetch "04-02-2026"
        (fun _ => "u1") 100 = [okRec]
    ∧ recKeys okRec = ["id", "newspaper", "date", "url", "title", "body"]
    ∧ "bias" ∉ recKeys okRec ∧ "headline" ∉ recKeys okRec := by
  refine ⟨by decide, by decide, by decide, by decide⟩

/-- Witness for C3 (amended): the key lists of a concrete ABC record and a
concrete OkDiario record. -/
theorem claim_C3_witness :
    recKeys abcRecEx
      = ["id", "headline", "body", "link", "date", "bias", "newspaper"]
    ∧ recKeys okRec = ["id", "newspaper", "date", "url", "title", "body"] := by
  constructor
  · exact (claim_C3_amended.1 abcFetchEx nowFeb4 (fun _ => "id-1") abcLinkEx
      abcRecEx (by decide)).1
  · exact claim_C3_amended.2 okFetch "04-02-2026" (fun _ => "u1") okLink
      okRec (by decide)

/-- C8: in `ABC._extract_date_iso` the first success wins: a date from the
JSON-LD graph walk pre-empts everything, the DOM time element is used only
when JSON-LD yields nothing, the URL stamp only when both earlier tiers
fail, and within an article node a truthy `dateModified` string is used in
preference to `datePublished`. -/
theorem claim_C8_date_priority :
    (∀ (soup : ABC.Soup) (link : String) (d : DT),
      ABC.jsonldDate soup.jsonld = some d →
        ABC.extract_date_iso soup link = some d)
    ∧ (∀ (soup : ABC.Soup) (link : String) (d : DT),
        ABC.jsonldDate soup.jsonld = none → ABC.timeTagDate soup = some d →
        ABC.extract_date_iso soup link = some d)
    ∧ (∀ (soup : ABC.Soup) (link : String),
        ABC.jsonldDate soup.jsonld = none → ABC.timeTagDate soup = none →
        ABC.extract_date_iso soup link = ABC.urlStampDate link)
    ∧ (∀ (o : Json) (s1 : String),
        isJObj o = true → isArticleType o = true →
        jget o "dateModified" = some (Json.str s1) → stripStr s1 ≠ "" →
        ABC.objDate o = normalize_dt s1) := by
  refine ⟨?_, ?_, ?_, ?_⟩
  · intro soup link d h
    unfold ABC.extract_date_iso
    rw [h]
  · intro soup link d h1 h2
    unfold ABC.extract_date_iso
    rw [h1, h2]
  · intro soup link h1 h2
    unfold ABC.extract_date_iso
    rw [h1, h2]
  · intro o s1 hobj htyp hget hstrip
    have hne : s1 ≠ "" := fun h => hstrip (by rw [h]; rfl)
    have hpy : pyGetOr o "dateModified" "datePublished"
        = some (Json.str s1) := by
      unfold pyGetOr
      rw [hget]
      show (if jsonTruthy (Json.str s1) = true then _ else _) = _
      rw [if_pos (by simp [jsonTruthy, hne])]
    unfold ABC.objDate
    rw [if_neg (by simp [hobj]), if_neg (by simp [htyp])]
    simp only [hpy]
    rw [if_pos hstrip]

/-- Witness for C8: the three priority conjuncts applied to concrete
documents, including an article node carrying both date fields where the
modified date wins. -/
theorem claim_C8_witness :
    ABC.extract_date_iso abcDocEx abcLinkEx
      = some ⟨2026, 2, 4, 10, 0, 0, some 0⟩
    ∧ ABC.extract_date_iso abcNoDateDoc abcLinkEx
      = ABC.urlStampDate abcLinkEx
    ∧ ABC.objDate objBothDates = normalize_dt "2026-02-04T10:00:00Z" := by
  refine ⟨?_, ?_, ?_⟩
  · exact claim_C8_date_priority.1 abcDocEx abcLinkEx
      ⟨2026, 2, 4, 10, 0, 0, some 0⟩ (by decide)
  · exact claim_C8_date_priority.2.2.1 abcNoDateDoc abcLinkEx (by decide)
      (by decide)
  · exact claim_C8_date_priority.2.2.2 objBothDates "2026-02-04T10:00:00Z"
      (by decide) (by decide) rfl (by decide)
